import Mathlib

/-!
Verification of the BIG-IP Terraform provider handlers.

A shallow embedding of the DNS resolver, ILX workspace and APM webtop handlers
(`bigip/resource_bigip_net_dns_resolver.go`, `bigip/resource_bigip_ilx_workspace.go`,
`bigip/resource_bigip_apm_webtop.go`, `bigip/datasource_bigip_apm_webtop.go`) and of the
vendored client wrappers they call (`go-bigip/ilx.go`, `go-bigip/apm_webtop.go`),
the `BooledString` JSON codec and the ILX extension upload included.

Go values that travel through `interface{}` are embedded with their dynamic type
(`GoValue`), because the handlers use type assertions; a failed single-value type
assertion is a Go panic and is embedded as `Except.error` carrying the panic text.
The remote device is an explicit state `σ` threaded through the client calls.
-/

set_option autoImplicit false

namespace Bigip

/-! ## Go runtime values -/

/-- A non-nil Go `error`; `msg` is what its `Error()` method returns. A possibly-nil
`error` is an `Option GoError`. -/
structure GoError where
  msg : String
  deriving DecidableEq, Repr

/-- A Go slice `[]T`: `none` is the nil slice, `some xs` a non-nil slice. -/
abbrev GoSlice (α : Type) := Option (List α)

/-- Go `len(s)`; the nil slice has length 0. -/
def GoSlice.len {α : Type} : GoSlice α → Nat
  | none => 0
  | some xs => xs.length

/-- The elements visited by `for _, x := range s`; none for the nil slice. -/
def GoSlice.elems {α : Type} : GoSlice α → List α
  | none => []
  | some xs => xs

/-- A value held in a Go `interface{}`, tagged with its dynamic type.
`namedString ty s` is a value of a defined type `ty` whose underlying type is
`string` (such as `bigip.InitialState`), `namedBool ty b` one whose underlying type
is `bool` (such as `bigip.BooledString`); `strings` is a non-nil `[]string`, `slice`
a non-nil `[]interface{}`, `nilSlice` the nil `[]interface{}`, and `map` a
`map[string]interface{}` given by its entries. -/
inductive GoValue where
  | nil
  | string (s : String)
  | int (n : Int)
  | bool (b : Bool)
  | namedString (ty : String) (s : String)
  | namedBool (ty : String) (b : Bool)
  | strings (xs : List String)
  | slice (xs : List GoValue)
  | nilSlice
  | map (kv : List (String × GoValue))
  deriving Repr

mutual
/-- Structural equality test on `GoValue`. -/
def GoValue.beq : GoValue → GoValue → Bool
  | .nil, .nil => true
  | .string a, .string b => a == b
  | .int a, .int b => a == b
  | .bool a, .bool b => a == b
  | .namedString t a, .namedString u b => t == u && a == b
  | .namedBool t a, .namedBool u b => t == u && a == b
  | .strings a, .strings b => a == b
  | .slice a, .slice b => GoValue.beqList a b
  | .nilSlice, .nilSlice => true
  | .map a, .map b => GoValue.beqEntries a b
  | _, _ => false
/-- Structural equality test on lists of `GoValue`. -/
def GoValue.beqList : List GoValue → List GoValue → Bool
  | [], [] => true
  | x :: xs, y :: ys => GoValue.beq x y && GoValue.beqList xs ys
  | _, _ => false
/-- Structural equality test on map entries. -/
def GoValue.beqEntries : List (String × GoValue) → List (String × GoValue) → Bool
  | [], [] => true
  | (j, x) :: xs, (k, y) :: ys => j == k && GoValue.beq x y && GoValue.beqEntries xs ys
  | _, _ => false
end

/-- The name Go prints for the dynamic type of an interface value. -/
def GoValue.typeName : GoValue → String
  | .nil => "nil"
  | .string _ => "string"
  | .int _ => "int"
  | .bool _ => "bool"
  | .namedString ty _ => ty
  | .namedBool ty _ => ty
  | .strings _ => "[]string"
  | .slice _ => "[]interface {}"
  | .nilSlice => "[]interface {}"
  | .map _ => "map[string]interface {}"

/-- The text of the run-time panic of a failed type assertion `v.(want)`. -/
def conversionPanic (v : GoValue) (want : String) : String :=
  "interface conversion: interface {} is " ++ v.typeName ++ ", not " ++ want

/-- Go `v.(string)`: succeeds only when the dynamic type is exactly `string`. -/
def GoValue.assertString (v : GoValue) : Except String String :=
  match v with
  | .string s => .ok s
  | _ => .error (conversionPanic v "string")

/-- Go `v.(int)`. -/
def GoValue.assertInt (v : GoValue) : Except String Int :=
  match v with
  | .int n => .ok n
  | _ => .error (conversionPanic v "int")

/-- Go `v.(T)` for a defined type `T` named `ty` with underlying type `string`: the
dynamic type has to be `T` itself, a plain `string` does not qualify. -/
def GoValue.assertNamedString (ty : String) (v : GoValue) : Except String String :=
  match v with
  | .namedString u s => if u = ty then .ok s else .error (conversionPanic v ty)
  | _ => .error (conversionPanic v ty)

/-- Go `v.(T)` for a defined type `T` named `ty` with underlying type `bool`. -/
def GoValue.assertNamedBool (ty : String) (v : GoValue) : Except String Bool :=
  match v with
  | .namedBool u b => if u = ty then .ok b else .error (conversionPanic v ty)
  | _ => .error (conversionPanic v ty)

/-- Go `list, ok := v.([]interface{})`: `none` is `ok = false`. -/
def GoValue.asSlice (v : GoValue) : Option (GoSlice GoValue) :=
  match v with
  | .slice xs => some (some xs)
  | .nilSlice => some none
  | _ => none

/-- Go `data, ok := v.(map[string]interface{})`: `none` is `ok = false`. -/
def GoValue.asMap (v : GoValue) : Option (List (String × GoValue)) :=
  match v with
  | .map kv => some kv
  | _ => none

/-- Boxing of a `[]interface{}` into an `interface{}`. -/
def GoValue.ofSlice : GoSlice GoValue → GoValue
  | none => .nilSlice
  | some xs => .slice xs

/-- Rendering of an `error` operand by the `%w` verb of `fmt.Errorf`. -/
def fmtErrW : Option GoError → String
  | some e => e.msg
  | none => "%!w(<nil>)"

/-- Rendering of an `error` operand by the `%v` verb of `fmt.Errorf`. -/
def fmtErrV : Option GoError → String
  | some e => e.msg
  | none => "<nil>"

/-! ## Go `strings` functions used by the handlers -/

/-- Whether `sub` occurs in `s` as a contiguous block. -/
def hasInfix : List Char → List Char → Bool
  | [], sub => sub.isEmpty
  | c :: s, sub => sub.isPrefixOf (c :: s) || hasInfix s sub

/-- Go `strings.Contains(s, substr)`. -/
def stringsContains (s substr : String) : Bool :=
  hasInfix s.toList substr.toList

/-- Go `unicode.ToLower(r)`: `A`..`Z` are shifted to `a`..`z`, other ASCII runes are
returned unchanged, and a rune above ASCII is looked up in the Unicode case tables,
which are the parameter `caseTable`. -/
def unicodeToLower (caseTable : Char → Char) (r : Char) : Char :=
  if r.toNat ≤ 0x7F then
    if 'A'.toNat ≤ r.toNat ∧ r.toNat ≤ 'Z'.toNat then Char.ofNat (r.toNat + ('a'.toNat - 'A'.toNat)) else r
  else caseTable r

/-- Go `strings.ToLower(s)`: every rune mapped through `unicode.ToLower`. -/
def stringsToLower (caseTable : Char → Char) (s : String) : String :=
  String.mk (s.toList.map (unicodeToLower caseTable))

/-! ## The Terraform plugin SDK: schema, resource data, diagnostics

The SDK (`helper/schema`, `diag`) is outside the repository; the handlers use only
`d.Get`, `d.GetOk`, `d.Set`, `d.Id`, `d.SetId` and `diag.FromErr`, which are embedded
here. An attribute read through `d.Get` always has the Go type fixed by the schema
(`string`, `int`, `bool`, `[]interface{}`, `map[string]interface{}`), and `d.Set`
decodes the value it is given by its reflection kind, so that values of defined types
and `[]string` slices are accepted and stored in the schema's representation. -/

/-- The type of an attribute: `schema.TypeString`, `schema.TypeInt`, `schema.TypeBool`,
`schema.TypeList` with an element, and the nested block `&schema.Resource` given by the
schema of its fields. -/
inductive Schema where
  | TypeString
  | TypeInt
  | TypeBool
  | TypeList (elem : Schema)
  | Resource (fields : List (String × Schema))
  deriving Repr

mutual
/-- The zero value `d.Get` returns for an attribute that holds nothing. -/
def zeroValue : Schema → GoValue
  | .TypeString => .string ""
  | .TypeInt => .int 0
  | .TypeBool => .bool false
  | .TypeList _ => .slice []
  | .Resource fs => .map (zeroFields fs)
/-- The zero value of every field of a nested block. -/
def zeroFields : List (String × Schema) → List (String × GoValue)
  | [] => []
  | (k, t) :: fs => (k, zeroValue t) :: zeroFields fs
end

/-- The elements of a value whose reflection kind is slice. -/
def GoValue.sliceElems : GoValue → Option (List GoValue)
  | .slice xs => some xs
  | .nilSlice => some []
  | .strings xs => some (xs.map GoValue.string)
  | _ => none

mutual
/-- The field writer: decodes `v` for an attribute of type `t` and returns the value
as it is stored and later read back, or `none` when `v` has the wrong kind. A string
attribute takes any value of kind string, a bool attribute any value of kind bool, a
list any slice whose elements decode, a nested block a map whose keys are all fields
of the block; fields the map leaves out read back as their zero value. -/
def writeValue : Schema → GoValue → Option GoValue
  | .TypeString, v =>
    match v with
    | .string s => some (.string s)
    | .namedString _ s => some (.string s)
    | _ => none
  | .TypeInt, v =>
    match v with
    | .int n => some (.int n)
    | _ => none
  | .TypeBool, v =>
    match v with
    | .bool b => some (.bool b)
    | .namedBool _ b => some (.bool b)
    | _ => none
  | .TypeList e, v =>
    match v.sliceElems with
    | some xs => (xs.mapM (fun x => writeValue e x)).map GoValue.slice
    | none => none
  | .Resource fs, v =>
    match v with
    | .map kv =>
      if kv.all (fun p => (fs.map Prod.fst).contains p.1) then (writeFields fs kv).map GoValue.map
      else none
    | _ => none
/-- The field writer on the fields of a nested block, in schema order. -/
def writeFields : List (String × Schema) → List (String × GoValue) → Option (List (String × GoValue))
  | [], _ => some []
  | (k, t) :: fs, kv =>
    match kv.lookup k with
    | some v =>
      match writeValue t v, writeFields fs kv with
      | some w, some rest => some ((k, w) :: rest)
      | _, _ => none
    | none =>
      match writeFields fs kv with
      | some rest => some ((k, zeroValue t) :: rest)
      | none => none
end

/-- The part of `schema.ResourceData` the handlers touch: the resource schema, the ID
and the attribute values. -/
structure ResourceData where
  schema : List (String × Schema)
  id : String
  attrs : List (String × GoValue)
  deriving Repr

/-- SDK `d.Id()`. -/
def ResourceData.Id (d : ResourceData) : String := d.id

/-- SDK `d.SetId(v)`. -/
def ResourceData.SetId (d : ResourceData) (v : String) : ResourceData :=
  { d with id := v }

mutual
/-- The field reader: the value `d.Get` hands to the handler for a held value of an
attribute of type `t`. A list element that holds the zero value of the element type
is handed over as the nil interface: an empty string in a list of strings, and a
nested block whose fields are all zero. -/
def readValue : Schema → GoValue → GoValue
  | .TypeList e, v =>
    match v with
    | .slice xs =>
      .slice (xs.map (fun x => if GoValue.beq x (zeroValue e) then GoValue.nil else readValue e x))
    | _ => v
  | .Resource fs, v =>
    match v with
    | .map kv => .map (readFields fs kv)
    | _ => v
  | _, v => v
/-- The field reader on the fields of a nested block, in schema order. -/
def readFields : List (String × Schema) → List (String × GoValue) → List (String × GoValue)
  | [], _ => []
  | (k, t) :: fs, kv =>
    match kv.lookup k with
    | some v => (k, readValue t v) :: readFields fs kv
    | none => (k, zeroValue t) :: readFields fs kv
end

/-- SDK `d.Get(key)`: the attribute in the Go type of its schema as the field reader
hands it over, the zero value of that type when nothing is held, and the nil interface
for a key outside the schema. -/
def ResourceData.Get (d : ResourceData) (key : String) : GoValue :=
  match d.schema.lookup key with
  | none => .nil
  | some t =>
    match d.attrs.lookup key with
    | none => zeroValue t
    | some v =>
      match writeValue t v with
      | some w => readValue t w
      | none => zeroValue t

/-- SDK `d.GetOk(key)`: the value of `d.Get(key)` and whether it differs from the zero
value of the attribute's type. -/
def ResourceData.GetOk (d : ResourceData) (key : String) : GoValue × Bool :=
  match d.schema.lookup key with
  | none => (.nil, false)
  | some t => (d.Get key, !(GoValue.beq (d.Get key) (zeroValue t)))

/-- SDK `d.Set(key, value)`: fails for a key outside the schema and for a value the
field writer cannot decode, leaving the data as it was; otherwise the decoded value
replaces the attribute. The two error texts stand for the SDK's own messages, which
no handler inspects. -/
def ResourceData.Set (d : ResourceData) (key : String) (value : GoValue) : ResourceData × Option GoError :=
  match d.schema.lookup key with
  | none => (d, some ⟨"Invalid address to set: " ++ key⟩)
  | some t =>
    match writeValue t value with
    | none => (d, some ⟨key ++ ": expected a value of the attribute type, got " ++ value.typeName⟩)
    | some w => ({ d with attrs := (key, w) :: d.attrs }, none)

/-- SDK `diag.Severity`. -/
inductive Severity where
  | Error
  | Warning
  deriving DecidableEq, Repr

/-- SDK `diag.Diagnostic`. -/
structure Diagnostic where
  Severity : Severity
  Summary : String
  Detail : String
  deriving DecidableEq, Repr

/-- SDK `diag.Diagnostics`; the nil value is the empty list. -/
abbrev Diagnostics := List Diagnostic

/-- SDK `diag.FromErr(err)`: one error diagnostic whose summary is the error text, and
nil for a nil error. -/
def diagFromErr : Option GoError → Diagnostics
  | none => []
  | some e => [{ Severity := .Error, Summary := e.msg, Detail := "" }]

/-- Go `context.Context`, as far as the client wrappers look at it: `ctx.Err()`. -/
structure Context where
  Err : Option GoError
  deriving DecidableEq, Repr

/-! ## DNS resolver: `bigip/resource_bigip_net_dns_resolver.go` -/

/-- Modelled from the spec: the declaration of `bigip.DNSResolverNameserver` (package
`github.com/efellowsbg/go-bigip`) is not among the sources; the handlers use its
field `Name`. -/
structure DNSResolverNameserver where
  Name : String
  deriving DecidableEq, Repr

/-- Modelled from the spec: the declaration of `bigip.DNSResolverForwardZone` is not
among the sources; the handlers use its fields `Name` and `NameServers`. -/
structure DNSResolverForwardZone where
  Name : String := ""
  NameServers : GoSlice DNSResolverNameserver := none
  deriving DecidableEq, Repr

/-- Modelled from the spec: the declaration of `bigip.DNSResolver` is not among the
sources; these are the fields the handlers read and write, the flat field
correspondence of the resource's attributes. -/
structure DNSResolver where
  Name : String := ""
  FullPath : String := ""
  Description : String := ""
  AnswerDefaultZones : String := ""
  CacheSize : Int := 0
  RandomizeQueryNameCase : String := ""
  RouteDomain : String := ""
  Type_ : String := ""
  UseIpv4 : String := ""
  UseIpv6 : String := ""
  UseTcp : String := ""
  UseUdp : String := ""
  ForwardZones : GoSlice DNSResolverForwardZone := none
  deriving DecidableEq, Repr

/-- The four client methods the DNS resolver handlers call on `*bigip.BigIP`
(`CreateDNSResolver`, `GetDNSResolver`, `ModifyDNSResolver`, `DeleteDNSResolver`),
acting on a device state `σ`; their bodies are not among the sources. -/
structure DNSResolverClient (σ : Type) where
  CreateDNSResolver : σ → DNSResolver → σ × Option GoError
  GetDNSResolver : σ → String → Option DNSResolver × Option GoError
  ModifyDNSResolver : σ → String → DNSResolver → σ × Option GoError
  DeleteDNSResolver : σ → String → σ × Option GoError

/-- The schema of `resourceBigipNetDnsResolver`. -/
def resourceBigipNetDnsResolverSchema : List (String × Schema) :=
  [("name", .TypeString),
   ("description", .TypeString),
   ("answer_default_zones", .TypeString),
   ("cache_size", .TypeInt),
   ("randomize_query_name_case", .TypeString),
   ("route_domain", .TypeString),
   ("type", .TypeString),
   ("use_ipv4", .TypeString),
   ("use_ipv6", .TypeString),
   ("use_tcp", .TypeString),
   ("use_udp", .TypeString),
   ("forward_zones", .TypeList (.Resource [("name", .TypeString), ("nameservers", .TypeList .TypeString)]))]

/-- Modelled from the spec: `listToStringSlice` is a helper of the provider package
that is not among the sources; it is the flat conversion of a `[]interface{}` holding
strings to a `[]string`, each element by the type assertion `v.(string)`. -/
def listToStringSlice : List GoValue → Except String (List String)
  | [] => .ok []
  | v :: rest =>
    match v.assertString, listToStringSlice rest with
    | .error p, _ => .error p
    | .ok _, .error p => .error p
    | .ok s, .ok ss => .ok (s :: ss)

/-- The body of the loop of `expandDNSResolverForwardZones` for one `item`: `none`
when the item is skipped by `continue`, otherwise the zone that is appended. -/
def expandForwardZone (item : GoValue) : Except String (Option DNSResolverForwardZone) :=
  match item.asMap with
  | none => .ok none
  | some data =>
    let name : Except String String :=
      match data.lookup "name" with
      | some v => v.assertString
      | none => .ok ""
    match name with
    | .error p => .error p
    | .ok zoneName =>
      match data.lookup "nameservers" with
      | some v =>
        if v.beq .nil then .ok (some { Name := zoneName })
        else
          match v.asSlice with
          | some list =>
            match listToStringSlice list.elems with
            | .error p => .error p
            | .ok names =>
              .ok (some { Name := zoneName, NameServers := some (names.map (fun ns => { Name := ns })) })
          | none => .ok (some { Name := zoneName })
      | none => .ok (some { Name := zoneName })

/-- The loop of `expandDNSResolverForwardZones` over the items, in order. -/
def expandForwardZoneItems : List GoValue → Except String (List DNSResolverForwardZone)
  | [] => .ok []
  | item :: rest =>
    match expandForwardZone item with
    | .error p => .error p
    | .ok z =>
      match expandForwardZoneItems rest with
      | .error p => .error p
      | .ok zs => .ok (z.toList ++ zs)

/-- Go `expandDNSResolverForwardZones`. -/
def expandDNSResolverForwardZones (raw : GoSlice GoValue) : Except String (GoSlice DNSResolverForwardZone) :=
  if raw.len = 0 then .ok none
  else
    match expandForwardZoneItems raw.elems with
    | .error p => .error p
    | .ok zones => .ok (some zones)

/-- The inner loop of `flattenDNSResolverForwardZones`: the non-empty names of the
zone's nameservers, in order. -/
def flattenNameServers (nameServers : GoSlice DNSResolverNameserver) : List String :=
  (nameServers.elems.filter (fun ns => ns.Name ≠ "")).map (fun ns => ns.Name)

/-- Go `flattenDNSResolverForwardZones`. -/
def flattenDNSResolverForwardZones (zones : GoSlice DNSResolverForwardZone) : GoSlice GoValue :=
  if zones.len = 0 then some []
  else
    some (zones.elems.map (fun zone =>
      GoValue.map [("name", .string zone.Name), ("nameservers", .strings (flattenNameServers zone.NameServers))]))

/-- Go `isDNSResolverNotFound`. -/
def isDNSResolverNotFound (caseTable : Char → Char) (err : Option GoError) : Bool :=
  match err with
  | none => false
  | some e =>
    stringsContains e.msg "01020036" ||
      stringsContains (stringsToLower caseTable e.msg) "not found" ||
      stringsContains e.msg "404"

/-- Go `getNetDNSResolverConfig`. -/
def getNetDNSResolverConfig (d : ResourceData) (config : DNSResolver) : Except String DNSResolver := do
  let description ← (d.Get "description").assertString
  let answerDefaultZones ← (d.Get "answer_default_zones").assertString
  let cacheSize ← (d.Get "cache_size").assertInt
  let randomizeQueryNameCase ← (d.Get "randomize_query_name_case").assertString
  let routeDomain ← (d.Get "route_domain").assertString
  let type ← (d.Get "type").assertString
  let useIpv4 ← (d.Get "use_ipv4").assertString
  let useIpv6 ← (d.Get "use_ipv6").assertString
  let useTcp ← (d.Get "use_tcp").assertString
  let useUdp ← (d.Get "use_udp").assertString
  let config : DNSResolver :=
    { config with
      Description := description
      AnswerDefaultZones := answerDefaultZones
      CacheSize := cacheSize
      RandomizeQueryNameCase := randomizeQueryNameCase
      RouteDomain := routeDomain
      Type_ := type
      UseIpv4 := useIpv4
      UseIpv6 := useIpv6
      UseTcp := useTcp
      UseUdp := useUdp }
  let (v, ok) := d.GetOk "forward_zones"
  if ok then
    match v.asSlice with
    | none => .error (conversionPanic v "[]interface {}")
    | some raw =>
      let zones ← expandDNSResolverForwardZones raw
      pure { config with ForwardZones := zones }
  else
    pure config

/-- Go `resourceBigipNetDnsResolverRead`. -/
def resourceBigipNetDnsResolverRead {σ : Type} (caseTable : Char → Char) (client : DNSResolverClient σ)
    (dev : σ) (d : ResourceData) : ResourceData × Diagnostics :=
  let name := d.Id
  match client.GetDNSResolver dev name with
  | (_, some err) =>
    if isDNSResolverNotFound caseTable (some err) then (d.SetId "", [])
    else (d, diagFromErr (some ⟨"error retrieving DNS resolver " ++ name ++ ": " ++ fmtErrV (some err)⟩))
  | (none, none) => (d.SetId "", [])
  | (some resolver, none) =>
    let d := if resolver.FullPath ≠ "" then (d.Set "name" (.string resolver.FullPath)).1
      else (d.Set "name" (.string name)).1
    let d := (d.Set "description" (.string resolver.Description)).1
    let d := (d.Set "answer_default_zones" (.string resolver.AnswerDefaultZones)).1
    let d := (d.Set "cache_size" (.int resolver.CacheSize)).1
    let d := (d.Set "randomize_query_name_case" (.string resolver.RandomizeQueryNameCase)).1
    let d := (d.Set "route_domain" (.string resolver.RouteDomain)).1
    let d := (d.Set "type" (.string resolver.Type_)).1
    let d := (d.Set "use_ipv4" (.string resolver.UseIpv4)).1
    let d := (d.Set "use_ipv6" (.string resolver.UseIpv6)).1
    let d := (d.Set "use_tcp" (.string resolver.UseTcp)).1
    let d := (d.Set "use_udp" (.string resolver.UseUdp)).1
    let d := (d.Set "forward_zones" (GoValue.ofSlice (flattenDNSResolverForwardZones resolver.ForwardZones))).1
    (d, [])

/-- Go `resourceBigipNetDnsResolverCreate`: the device state after the call, the
resource data and the diagnostics, or the panic of a failed type assertion. -/
def resourceBigipNetDnsResolverCreate {σ : Type} (caseTable : Char → Char) (client : DNSResolverClient σ)
    (dev : σ) (d : ResourceData) : Except String (σ × ResourceData × Diagnostics) := do
  let name ← (d.Get "name").assertString
  let resolver : DNSResolver := { Name := name }
  let config ← getNetDNSResolverConfig d resolver
  match client.CreateDNSResolver dev config with
  | (dev, some err) =>
    pure (dev, d, diagFromErr (some ⟨"error creating DNS resolver " ++ name ++ ": " ++ fmtErrV (some err)⟩))
  | (dev, none) =>
    let d := d.SetId name
    pure (dev, resourceBigipNetDnsResolverRead caseTable client dev d)

/-- Go `resourceBigipNetDnsResolverUpdate`. -/
def resourceBigipNetDnsResolverUpdate {σ : Type} (caseTable : Char → Char) (client : DNSResolverClient σ)
    (dev : σ) (d : ResourceData) : Except String (σ × ResourceData × Diagnostics) := do
  let name := d.Id
  let resolver : DNSResolver := { Name := name }
  let config ← getNetDNSResolverConfig d resolver
  match client.ModifyDNSResolver dev name config with
  | (dev, some err) =>
    pure (dev, d, diagFromErr (some ⟨"error modifying DNS resolver " ++ name ++ ": " ++ fmtErrV (some err)⟩))
  | (dev, none) =>
    pure (dev, resourceBigipNetDnsResolverRead caseTable client dev d)

/-- Go `resourceBigipNetDnsResolverDelete`. -/
def resourceBigipNetDnsResolverDelete {σ : Type} (caseTable : Char → Char) (client : DNSResolverClient σ)
    (dev : σ) (d : ResourceData) : σ × ResourceData × Diagnostics :=
  let name := d.Id
  match client.DeleteDNSResolver dev name with
  | (dev, some err) =>
    if isDNSResolverNotFound caseTable (some err) then (dev, d.SetId "", [])
    else (dev, d, diagFromErr (some ⟨"error deleting DNS resolver " ++ name ++ ": " ++ fmtErrV (some err)⟩))
  | (dev, none) => (dev, d.SetId "", [])

/-! ## The vendored client: `go-bigip/ilx.go`, `go-bigip/apm_webtop.go` -/

/-- Go `bigip.File`. -/
structure File where
  Name : String := ""
  deriving DecidableEq, Repr

/-- Go `bigip.Extension`. -/
structure Extension where
  Name : String := ""
  Files : GoSlice File := none
  deriving DecidableEq, Repr

/-- Go `bigip.ILXWorkspace`. -/
structure ILXWorkspace where
  Name : String := ""
  FullPath : String := ""
  Generation : Int := 0
  SelfLink : String := ""
  NodeVersion : String := ""
  StagedDirectory : String := ""
  Version : String := ""
  Extensions : GoSlice Extension := none
  Rules : GoSlice File := none
  deriving DecidableEq, Repr

/-- Go `bigip.ExtensionConfig`. -/
structure ExtensionConfig where
  Name : String := ""
  Partition : String := ""
  WorkspaceName : String := ""
  deriving DecidableEq, Repr

/-- Go `bigip.WebtopConfig`; the defined string types `InitialState`,
`CustomizationType`, `LinkType`, `WebtopType` are held by their underlying string and
`BooledString` by its underlying bool. -/
structure WebtopConfig where
  Description : String := ""
  CustomizationGroup : String := ""
  InitialState : String := ""
  CustomizationType : String := ""
  LinkType : String := ""
  Type_ : String := ""
  ShowSearch : Bool := false
  WarningOnClose : Bool := false
  UrlEntryField : Bool := false
  ResourceSearch : Bool := false
  MinimizeToTray : Bool := false
  LocationSpecific : Bool := false
  deriving DecidableEq, Repr

/-- Go `bigip.Webtop`, which embeds `WebtopConfig`. -/
structure Webtop extends WebtopConfig where
  TMPartition : String := ""
  Partition : String := ""
  Name : String := ""
  deriving DecidableEq, Repr

/-- The anonymous struct type of `WebtopRead.CustomizationGroupReference`. -/
structure CustomizationGroupReference where
  Link : String := ""
  deriving DecidableEq, Repr

/-- Go `bigip.WebtopRead`, which embeds `Webtop`. -/
structure WebtopRead extends Webtop where
  FullPath : String := ""
  SelfLink : String := ""
  CustomizationGroupReference : CustomizationGroupReference := {}
  Generation : Int := 0
  deriving DecidableEq, Repr

/-- The transport methods of `*bigip.BigIP` (`getForEntity`, `post`, `patch`,
`delete`), whose bodies are not among the sources, one field for each call site of the
wrappers below, acting on a device state `σ`. `getForEntity` yields the entity it
decoded into its first argument, the error and the `exists` flag. -/
structure BigIP (σ : Type) where
  getForEntityWorkspace : σ → String → ILXWorkspace × Option GoError × Bool
  postWorkspace : σ → ILXWorkspace → σ × Option GoError
  deleteWorkspace : σ → String → σ × Option GoError
  patchWorkspace : σ → ILXWorkspace → String → σ × Option GoError
  getForEntityWebtop : σ → String → WebtopRead × Option GoError × Bool
  postWebtop : σ → Webtop → σ × Option GoError
  deleteWebtop : σ → String → σ × Option GoError
  patchWebtop : σ → WebtopConfig → String → σ × Option GoError

/-- Go `(*BigIP).GetWorkspace`. -/
def BigIP.GetWorkspace {σ : Type} (b : BigIP σ) (dev : σ) (_ctx : Context) (path : String) :
    Option ILXWorkspace × Option GoError :=
  match b.getForEntityWorkspace dev path with
  | (spc, err, exists_) =>
    if !exists_ then (none, some ⟨"workspace does not exist: " ++ fmtErrW err⟩)
    else if err.isSome then (none, some ⟨"error getting ILX Workspace: " ++ fmtErrW err⟩)
    else (some spc, none)

/-- Go `(*BigIP).CreateWorkspace`. -/
def BigIP.CreateWorkspace {σ : Type} (b : BigIP σ) (dev : σ) (_ctx : Context) (path : String) :
    σ × Option GoError :=
  match b.postWorkspace dev { Name := path } with
  | (dev, some err) => (dev, some ⟨"error creating ILX Workspace: " ++ fmtErrW (some err)⟩)
  | (dev, none) => (dev, none)

/-- Go `(*BigIP).DeleteWorkspace`. -/
def BigIP.DeleteWorkspace {σ : Type} (b : BigIP σ) (dev : σ) (_ctx : Context) (name : String) :
    σ × Option GoError :=
  match b.deleteWorkspace dev name with
  | (dev, some err) => (dev, some ⟨"error deleting ILX Workspace: " ++ fmtErrW (some err)⟩)
  | (dev, none) => (dev, none)

/-- Go `(*BigIP).PatchWorkspace`. -/
def BigIP.PatchWorkspace {σ : Type} (b : BigIP σ) (dev : σ) (_ctx : Context) (name : String) :
    σ × Option GoError :=
  match b.patchWorkspace dev { Name := name } name with
  | (dev, some err) => (dev, some ⟨"error patching ILX Workspace: " ++ fmtErrW (some err)⟩)
  | (dev, none) => (dev, none)

/-- Go `(*BigIP).CreateWebtop`. -/
def BigIP.CreateWebtop {σ : Type} (b : BigIP σ) (dev : σ) (ctx : Context) (webtop : Webtop) :
    σ × Option GoError :=
  match ctx.Err with
  | some e => (dev, some e)
  | none => b.postWebtop dev webtop

/-- Go `(*BigIP).DeleteWebtop`. -/
def BigIP.DeleteWebtop {σ : Type} (b : BigIP σ) (dev : σ) (ctx : Context) (name : String) :
    σ × Option GoError :=
  match ctx.Err with
  | some e => (dev, some e)
  | none => b.deleteWebtop dev name

/-- Go `(*BigIP).GetWebtop`: on a live context the pointer it returns is never nil. -/
def BigIP.GetWebtop {σ : Type} (b : BigIP σ) (dev : σ) (ctx : Context) (name : String) :
    Option WebtopRead × Option GoError :=
  match ctx.Err with
  | some e => (none, some e)
  | none =>
    match b.getForEntityWebtop dev name with
    | (webtop, err, _) => (some webtop, err)

/-- Go `(*BigIP).ModifyWebtop`. -/
def BigIP.ModifyWebtop {σ : Type} (b : BigIP σ) (dev : σ) (ctx : Context) (name : String)
    (webtop : WebtopConfig) : σ × Option GoError :=
  match ctx.Err with
  | some e => (dev, some e)
  | none => b.patchWebtop dev webtop name

/-! ## ILX workspace: `bigip/resource_bigip_ilx_workspace.go` -/

/-- The schema of `resourceBigIPILXWorkspace`. -/
def resourceBigIPILXWorkspaceSchema : List (String × Schema) :=
  [("name", .TypeString)]

/-- Go `resourceBigIPILXWorkspaceRead`. -/
def resourceBigIPILXWorkspaceRead {σ : Type} (client : BigIP σ) (dev : σ) (ctx : Context)
    (d : ResourceData) : Except String (ResourceData × Diagnostics) := do
  let name ← (d.Get "name").assertString
  match client.GetWorkspace dev ctx name with
  | (_, some err) => pure (d, diagFromErr (some ⟨"error reading workspace " ++ fmtErrW (some err)⟩))
  | (none, none) => pure (d.SetId "", [])
  | (some workspace, none) => pure (d.SetId workspace.Name, [])

/-- Go `resourceBigIPILXWorkspaceCreate`. -/
def resourceBigIPILXWorkspaceCreate {σ : Type} (client : BigIP σ) (dev : σ) (ctx : Context)
    (d : ResourceData) : Except String (σ × ResourceData × Diagnostics) := do
  let name ← (d.Get "name").assertString
  match client.CreateWorkspace dev ctx name with
  | (dev, some err) => pure (dev, d, diagFromErr (some ⟨"error creating workspace " ++ fmtErrW (some err)⟩))
  | (dev, none) =>
    let id ← (d.Get "name").assertString
    pure (dev, d.SetId id, [])

/-- Go `resourceBigIPILXWorkspaceUpdate`. -/
def resourceBigIPILXWorkspaceUpdate {σ : Type} (client : BigIP σ) (dev : σ) (ctx : Context)
    (d : ResourceData) : Except String (σ × ResourceData × Diagnostics) := do
  let name ← (d.Get "name").assertString
  match client.PatchWorkspace dev ctx name with
  | (dev, some err) => pure (dev, d, diagFromErr (some ⟨"error updating workspace " ++ fmtErrW (some err)⟩))
  | (dev, none) => pure (dev, d, [])

/-- Go `resourceBigIPILXWorkspaceDelete`. -/
def resourceBigIPILXWorkspaceDelete {σ : Type} (client : BigIP σ) (dev : σ) (ctx : Context)
    (d : ResourceData) : Except String (σ × ResourceData × Diagnostics) := do
  let name ← (d.Get "name").assertString
  match client.DeleteWorkspace dev ctx name with
  | (dev, some err) => pure (dev, d, diagFromErr (some ⟨"error deleting workspace " ++ fmtErrW (some err)⟩))
  | (dev, none) => pure (dev, d.SetId "", [])

/-! ## APM webtop resource: `bigip/resource_bigip_apm_webtop.go` -/

/-- The schema of `resourceBigIPAPMWebtop`. -/
def resourceBigIPAPMWebtopSchema : List (String × Schema) :=
  [("name", .TypeString),
   ("tm_partition", .TypeString),
   ("partition", .TypeString),
   ("description", .TypeString),
   ("customization_group", .TypeString),
   ("initial_state", .TypeString),
   ("customization_type", .TypeString),
   ("link_type", .TypeString),
   ("type", .TypeString),
   ("show_search", .TypeBool),
   ("warning_on_close", .TypeBool),
   ("url_entry_field", .TypeBool),
   ("resource_search", .TypeBool),
   ("minimize_to_tray", .TypeBool),
   ("location_specific", .TypeBool),
   ("full_path", .TypeString),
   ("self_link", .TypeString),
   ("customization_group_reference", .TypeString),
   ("generation", .TypeInt)]

/-- The composite literal `bigip.WebtopConfig{...}` that `resourceBigIPAPMWebtopCreate`
and `resourceBigIPAPMWebtopUpdate` both build, its field values evaluated in source
order, each by a type assertion on `d.Get`. -/
def webtopConfigFromResourceData (d : ResourceData) : Except String WebtopConfig := do
  let description ← (d.Get "description").assertString
  let customizationGroup ← (d.Get "customization_group").assertString
  let initialState ← (d.Get "initial_state").assertNamedString "bigip.InitialState"
  let customizationType ← (d.Get "customization_type").assertNamedString "bigip.CustomizationType"
  let linkType ← (d.Get "link_type").assertNamedString "bigip.LinkType"
  let type ← (d.Get "type").assertNamedString "bigip.WebtopType"
  let showSearch ← (d.Get "show_search").assertNamedBool "bigip.BooledString"
  let warningOnClose ← (d.Get "warning_on_close").assertNamedBool "bigip.BooledString"
  let urlEntryField ← (d.Get "url_entry_field").assertNamedBool "bigip.BooledString"
  let resourceSearch ← (d.Get "resource_search").assertNamedBool "bigip.BooledString"
  let minimizeToTray ← (d.Get "minimize_to_tray").assertNamedBool "bigip.BooledString"
  let locationSpecific ← (d.Get "location_specific").assertNamedBool "bigip.BooledString"
  pure
    { Description := description
      CustomizationGroup := customizationGroup
      InitialState := initialState
      CustomizationType := customizationType
      LinkType := linkType
      Type_ := type
      ShowSearch := showSearch
      WarningOnClose := warningOnClose
      UrlEntryField := urlEntryField
      ResourceSearch := resourceSearch
      MinimizeToTray := minimizeToTray
      LocationSpecific := locationSpecific }

/-- Go `resourceBigIPAPMWebtopRead`. -/
def resourceBigIPAPMWebtopRead {σ : Type} (client : BigIP σ) (dev : σ) (ctx : Context)
    (d : ResourceData) : Except String (ResourceData × Diagnostics) := do
  let name ← (d.Get "name").assertString
  match client.GetWebtop dev ctx name with
  | (_, some err) => pure (d, diagFromErr (some ⟨"error reading webtop " ++ fmtErrW (some err)⟩))
  | (none, none) => pure (d.SetId "", [])
  | (some webtop, none) => pure (d.SetId webtop.Name, [])

/-- Go `resourceBigIPAPMWebtopCreate`. -/
def resourceBigIPAPMWebtopCreate {σ : Type} (client : BigIP σ) (dev : σ) (ctx : Context)
    (d : ResourceData) : Except String (σ × ResourceData × Diagnostics) := do
  let name ← (d.Get "name").assertString
  let tmPartition ← (d.Get "tm_partition").assertString
  let partition ← (d.Get "partition").assertString
  let config ← webtopConfigFromResourceData d
  let webtop : Webtop :=
    { toWebtopConfig := config, Name := name, TMPartition := tmPartition, Partition := partition }
  match client.CreateWebtop dev ctx webtop with
  | (dev, some err) => pure (dev, d, diagFromErr (some ⟨"error creating webtop " ++ fmtErrW (some err)⟩))
  | (dev, none) => pure (dev, d.SetId webtop.Name, [])

/-- Go `resourceBigIPAPMWebtopUpdate`; the literal `&bigip.Webtop{WebtopConfig: ...}`
leaves `Name`, `TMPartition` and `Partition` at their zero value. -/
def resourceBigIPAPMWebtopUpdate {σ : Type} (client : BigIP σ) (dev : σ) (ctx : Context)
    (d : ResourceData) : Except String (σ × ResourceData × Diagnostics) := do
  let config ← webtopConfigFromResourceData d
  let webtop : Webtop := { toWebtopConfig := config }
  match client.ModifyWebtop dev ctx webtop.Name webtop.toWebtopConfig with
  | (dev, some err) => pure (dev, d, diagFromErr (some ⟨"error updating webtop " ++ fmtErrW (some err)⟩))
  | (dev, none) => pure (dev, d, [])

/-- Go `resourceBigIPAPMWebtopDelete`. -/
def resourceBigIPAPMWebtopDelete {σ : Type} (client : BigIP σ) (dev : σ) (ctx : Context)
    (d : ResourceData) : Except String (σ × ResourceData × Diagnostics) := do
  let name ← (d.Get "name").assertString
  match client.DeleteWebtop dev ctx name with
  | (dev, some err) => pure (dev, d, diagFromErr (some ⟨"error deleting webtop " ++ fmtErrW (some err)⟩))
  | (dev, none) => pure (dev, d.SetId "", [])

/-! ## APM webtop data source: `bigip/datasource_bigip_apm_webtop.go` -/

/-- The schema of `dataSourceBigIPAPMWebtop`. -/
def dataSourceBigIPAPMWebtopSchema : List (String × Schema) :=
  [("name", .TypeString),
   ("full_path", .TypeString),
   ("generation", .TypeInt),
   ("self_link", .TypeString),
   ("customization_group", .TypeString),
   ("description", .TypeString),
   ("fallback_section_initial_state", .TypeString),
   ("link_type", .TypeString),
   ("location_specific", .TypeBool),
   ("minimize_to_tray", .TypeBool),
   ("show_search", .TypeBool),
   ("show_url_entry_field", .TypeBool),
   ("warn_when_closed", .TypeBool),
   ("webtop_type", .TypeString)]

/-- The attribute writes of `setAPMWebtopResourceData`, in source order: each pair is
one `d.Set(key, value)` with the value boxed in its static Go type. -/
def webtopAttributeWrites (webtop : WebtopRead) : List (String × GoValue) :=
  [("name", .string webtop.Name),
   ("full_path", .string webtop.FullPath),
   ("generation", .int webtop.Generation),
   ("self_link", .string webtop.SelfLink),
   ("customization_group", .string webtop.CustomizationGroup),
   ("description", .string webtop.Description),
   ("fallback_section_initial_state", .namedString "bigip.InitialState" webtop.InitialState),
   ("link_type", .namedString "bigip.LinkType" webtop.LinkType),
   ("location_specific", .namedBool "bigip.BooledString" webtop.LocationSpecific),
   ("minimize_to_tray", .namedBool "bigip.BooledString" webtop.MinimizeToTray),
   ("show_search", .namedBool "bigip.BooledString" webtop.ShowSearch),
   ("show_url_entry_field", .namedBool "bigip.BooledString" webtop.UrlEntryField),
   ("warn_when_closed", .namedBool "bigip.BooledString" webtop.WarningOnClose),
   ("webtop_type", .namedString "bigip.WebtopType" webtop.Type_)]

/-- The repeated stanza `err = d.Set(key, value); if err != nil return
diag.FromErr(err)` run over a list of writes: it stops at the first write that
fails, keeping the writes made before it. -/
def setEach : ResourceData → List (String × GoValue) → ResourceData × Diagnostics
  | d, [] => (d, [])
  | d, (key, value) :: rest =>
    match d.Set key value with
    | (d, some err) => (d, diagFromErr (some err))
    | (d, none) => setEach d rest

/-- Go `setAPMWebtopResourceData`. -/
def setAPMWebtopResourceData (d : ResourceData) (webtop : WebtopRead) : ResourceData × Diagnostics :=
  setEach d (webtopAttributeWrites webtop)

/-- Go `dataSourceBigIPAPMWebtopRead`, lines 90 to 96 as written. Line 97,
`diag := setAPMWebtopResourceData(d, webtop)`, passes `webtop`, which the vendored
`GetWebtop` returns as a `*bigip.WebtopRead`, to a parameter of the struct type
`bigip.WebtopRead`. Go converts no pointer to its element type in an argument, so the
statement is rejected by the type checker and lines 98 to 104 are never reached. The
embedding supplies no dereference of its own: past the `err != nil` return the result
is the type checker's message. -/
def dataSourceBigIPAPMWebtopRead {σ : Type} (client : BigIP σ) (dev : σ) (ctx : Context)
    (d : ResourceData) : Except String (ResourceData × Diagnostics) := do
  let _logged ← (d.Get "name").assertString
  let name ← (d.Get "name").assertString
  match client.GetWebtop dev ctx name with
  | (_, some err) => pure (d, diagFromErr (some err))
  | (_, none) =>
    .error "cannot use webtop (variable of type *bigip.WebtopRead) as bigip.WebtopRead value in argument to setAPMWebtopResourceData"

/-! ## `BooledString`: `go-bigip/apm_webtop.go`

`encoding/json` is outside the repository; `json.Marshal` of a Go `string` and
`json.Unmarshal` into a `*string` are embedded here on texts of runes. -/

/-- The runes `json.Marshal` does not copy verbatim into a string literal: the quote,
the backslash, the control characters, the HTML-sensitive `<`, `>`, `&`, and the line
and paragraph separators U+2028 and U+2029. -/
def jsonNeedsEscape (c : Char) : Bool :=
  c.toNat < 0x20 || c == '"' || c == '\\' || c == '<' || c == '>' || c == '&' ||
    c.toNat == 0x2028 || c.toNat == 0x2029

/-- Go `json.Marshal(str)` for a `string`: the text between double quotes, each rune
that needs it replaced by its escape sequence, which is the parameter `escape`;
marshalling a string never fails. -/
def jsonMarshalString (escape : Char → List Char) (str : String) : String × Option GoError :=
  (String.mk ('"' :: (str.toList.flatMap (fun c => if jsonNeedsEscape c then escape c else [c])) ++ ['"']),
    none)

/-- JSON insignificant whitespace. -/
def isJSONSpace (c : Char) : Bool :=
  c == ' ' || c == '\t' || c == '\r' || c == '\n'

/-- The text without the JSON whitespace around it. -/
def trimJSONSpace (cs : List Char) : List Char :=
  ((cs.dropWhile isJSONSpace).reverse.dropWhile isJSONSpace).reverse

/-- The value of a hexadecimal digit. -/
def hexDigit (c : Char) : Option Nat :=
  if '0'.toNat ≤ c.toNat ∧ c.toNat ≤ '9'.toNat then some (c.toNat - '0'.toNat)
  else if 'a'.toNat ≤ c.toNat ∧ c.toNat ≤ 'f'.toNat then some (c.toNat - 'a'.toNat + 10)
  else if 'A'.toNat ≤ c.toNat ∧ c.toNat ≤ 'F'.toNat then some (c.toNat - 'A'.toNat + 10)
  else none

/-- The 16-bit value of the four hexadecimal digits of a `\u` escape. -/
def hex4 (a b c d : Char) : Option Nat :=
  match hexDigit a, hexDigit b, hexDigit c, hexDigit d with
  | some w, some x, some y, some z => some (((w * 16 + x) * 16 + y) * 16 + z)
  | _, _, _, _ => none

/-- The body of a JSON string literal, after the opening quote, cut into units: a rune
(`inl`) or the 16-bit value of a `\u` escape (`inr`). The closing quote has to end the
text; a raw control character, an unknown escape and a missing closing quote are
malformed (`none`). -/
def jsonStringUnits : List Char → Option (List (Char ⊕ Nat))
  | [] => none
  | '"' :: rest => if rest.isEmpty then some [] else none
  | '\\' :: 'u' :: a :: b :: c :: d :: rest =>
    match hex4 a b c d, jsonStringUnits rest with
    | some n, some us => some (.inr n :: us)
    | _, _ => none
  | '\\' :: e :: rest =>
    let unit : Option Char :=
      if e == '"' then some '"'
      else if e == '\\' then some '\\'
      else if e == '/' then some '/'
      else if e == 'b' then some (Char.ofNat 8)
      else if e == 'f' then some (Char.ofNat 12)
      else if e == 'n' then some '\n'
      else if e == 'r' then some '\r'
      else if e == 't' then some '\t'
      else none
    match unit, jsonStringUnits rest with
    | some c, some us => some (.inl c :: us)
    | _, _ => none
  | '\\' :: [] => none
  | c :: rest =>
    if c.toNat < 0x20 then none
    else
      match jsonStringUnits rest with
      | some us => some (.inl c :: us)
      | none => none

/-- The rune of a lone `\u` escape: the replacement character U+FFFD for a surrogate. -/
def jsonUnitRune (n : Nat) : Char :=
  if 0xD800 ≤ n ∧ n < 0xE000 then Char.ofNat 0xFFFD else Char.ofNat n

/-- The runes of a unit list: a `\u` high surrogate directly followed by a `\u` low
surrogate is the rune of the pair, every other `\u` escape the rune of its value. -/
def jsonUnitsRunes : List (Char ⊕ Nat) → List Char
  | [] => []
  | .inl c :: rest => c :: jsonUnitsRunes rest
  | .inr hi :: .inr lo :: rest =>
    if 0xD800 ≤ hi ∧ hi < 0xDC00 ∧ 0xDC00 ≤ lo ∧ lo < 0xE000 then
      Char.ofNat (0x10000 + (hi - 0xD800) * 0x400 + (lo - 0xDC00)) :: jsonUnitsRunes rest
    else jsonUnitRune hi :: jsonUnitsRunes (.inr lo :: rest)
  | .inr n :: rest => jsonUnitRune n :: jsonUnitsRunes rest

/-- The string a JSON text denotes when the text, whitespace aside, is one JSON string
literal; `none` for every other text. -/
def jsonStringValue (data : String) : Option String :=
  match trimJSONSpace data.toList with
  | '"' :: body => (jsonStringUnits body).map (fun us => String.mk (jsonUnitsRunes us))
  | _ => none

/-- The text, whitespace aside, is the JSON literal `null`. -/
def isJSONNull (data : String) : Bool :=
  trimJSONSpace data.toList == "null".toList

/-- Go `json.Unmarshal(data, &str)` for a `string` variable holding `str`: a JSON string
literal is stored, the JSON `null` is accepted and stores nothing, and every other
text, malformed or a JSON value of another kind, is an error that stores nothing. The
error text stands for the package's syntax and type errors. -/
def jsonUnmarshalString (data : String) (str : String) : String × Option GoError :=
  match jsonStringValue data with
  | some s => (s, none)
  | none =>
    if isJSONNull data then (str, none)
    else (str, some ⟨"json: cannot unmarshal " ++ data ++ " into Go value of type string"⟩)

/-- Go `BooledString.MarshalJSON`. -/
def BooledString.MarshalJSON (escape : Char → List Char) (b : Bool) : String × Option GoError :=
  let str := if b then "true" else "false"
  jsonMarshalString escape str

/-- Go `(*BooledString).UnmarshalJSON`, on a receiver holding `b`: the receiver
afterwards and the error. -/
def BooledString.UnmarshalJSON (b : Bool) (data : String) : Bool × Option GoError :=
  match jsonUnmarshalString data "" with
  | (_, some err) => (b, some err)
  | (str, none) => (str == "true", none)

/-! ## ILX extension upload: `go-bigip/ilx.go`

`path/filepath`, `os` and `io/fs` are outside the repository; the lexical functions
`filepath.Clean`, `filepath.Join`, `filepath.Base` are embedded for slash-separated
paths, and the host file system is a pair of lookups. -/

/-- The components of a path between its slashes. -/
def splitSlash : List Char → List (List Char)
  | [] => [[]]
  | c :: cs =>
    match splitSlash cs with
    | comp :: rest => if c == '/' then [] :: comp :: rest else (c :: comp) :: rest
    | [] => [[c]]

/-- The component walk of `filepath.Clean`: empty and `.` components are dropped, a
`..` removes the component before it, is dropped at the root of a rooted path and is
kept at the start of a relative one. `stack` holds the components kept so far, last
first. -/
def cleanComponents (rooted : Bool) : List (List Char) → List (List Char) → List (List Char)
  | stack, [] => stack.reverse
  | stack, comp :: rest =>
    if comp = [] ∨ comp = ['.'] then cleanComponents rooted stack rest
    else if comp = ['.', '.'] then
      match stack with
      | top :: below =>
        if top = ['.', '.'] then cleanComponents rooted (comp :: stack) rest
        else cleanComponents rooted below rest
      | [] =>
        if rooted then cleanComponents rooted [] rest
        else cleanComponents rooted [comp] rest
    else cleanComponents rooted (comp :: stack) rest

/-- Go `filepath.Clean(path)`. -/
def filepathClean (path : String) : String :=
  let rooted := path.toList.head? == some '/'
  let comps := cleanComponents rooted [] (splitSlash path.toList)
  let out := (if rooted then ['/'] else []) ++ List.intercalate ['/'] comps
  if out.isEmpty then "." else String.mk out

/-- Go `filepath.Join(dir, name)`: the non-empty elements joined by a slash, cleaned;
the empty string when both are empty. -/
def filepathJoin (dir name : String) : String :=
  if dir ≠ "" then filepathClean (dir ++ "/" ++ name)
  else if name ≠ "" then filepathClean name
  else ""

/-- Go `filepath.Base(path)`: the last element of the path, trailing slashes aside. -/
def filepathBase (path : String) : String :=
  if path = "" then "."
  else
    let stripped := path.toList.reverse.dropWhile (fun c => c == '/')
    let last := (stripped.takeWhile (fun c => c != '/')).reverse
    if last.isEmpty then "/" else String.mk last

/-- Go `fs.DirEntry`, as far as the upload looks at it: `Name()` and `IsDir()`. -/
structure DirEntry where
  Name : String
  IsDir : Bool
  deriving DecidableEq, Repr

/-- Go `*os.File`, as far as the upload looks at it: `Name()` is the name the file was
opened under. -/
structure OsFile where
  Name : String
  deriving DecidableEq, Repr

/-- The host file system: `os.ReadDir(path)` and whether `os.Open(path)` fails. -/
structure HostFS where
  ReadDir : String → Except GoError (List DirEntry)
  Open : String → Option GoError

/-- Modelled from the spec: the declaration of `bigip.Upload` is not among the sources;
the upload uses its field `LocalFilePath`. -/
structure Upload where
  LocalFilePath : String := ""
  deriving DecidableEq, Repr

/-- Modelled from the spec: the declaration of `bigip.BigipCommand` is not among the
sources; `runCatCommand` sets its fields `Command` and `UtilCmdArgs`. -/
structure BigipCommand where
  Command : String := ""
  UtilCmdArgs : String := ""
  deriving DecidableEq, Repr

/-- The two methods of `*bigip.BigIP` the upload calls, whose bodies are not among the
sources: `UploadFile` and `RunCommand`, acting on a device state `σ`. -/
structure UploadClient (σ : Type) where
  UploadFile : σ → OsFile → σ × Except GoError Upload
  RunCommand : σ → BigipCommand → σ × Option GoError

/-- Go `fileFromDirEntry`. -/
def fileFromDirEntry (fs : HostFS) (entry : DirEntry) (dir : String) : Except GoError OsFile :=
  let path := filepathJoin dir entry.Name
  match fs.Open path with
  | some err => .error err
  | none => .ok { Name := path }

/-- The loop of `readFilesFromDirectory` over the directory entries. -/
def readFilesLoop (fs : HostFS) (path : String) : List DirEntry → Except GoError (List OsFile)
  | [] => .ok []
  | fileDir :: rest =>
    if fileDir.IsDir then readFilesLoop fs path rest
    else
      match fileFromDirEntry fs fileDir path with
      | .error err => .error ⟨"error getting file from directory entry: " ++ fmtErrW (some err)⟩
      | .ok f =>
        match readFilesLoop fs path rest with
        | .error err => .error err
        | .ok files => .ok (f :: files)

/-- Go `readFilesFromDirectory`. -/
def readFilesFromDirectory (fs : HostFS) (path : String) : Except GoError (List OsFile) :=
  match fs.ReadDir path with
  | .error err => .error ⟨"error reading directory: " ++ fmtErrW (some err)⟩
  | .ok fileDirs => readFilesLoop fs path fileDirs

/-- Go `(*BigIP).uploadFiles`: the device afterwards and the local paths of the files
uploaded, or the first upload error. -/
def uploadFiles {σ : Type} (b : UploadClient σ) : σ → List OsFile → σ × Except GoError (List String)
  | dev, [] => (dev, .ok [])
  | dev, file :: rest =>
    if file.Name == "index.js" || file.Name == "package.json" then
      match b.UploadFile dev file with
      | (dev, .error err) => (dev, .error ⟨"error uploading file: " ++ fmtErrW (some err)⟩)
      | (dev, .ok res) =>
        match uploadFiles b dev rest with
        | (dev, .error err) => (dev, .error err)
        | (dev, .ok paths) => (dev, .ok (res.LocalFilePath :: paths))
    else uploadFiles b dev rest

/-- Go `(*BigIP).runCatCommand`. -/
def runCatCommand {σ : Type} (b : UploadClient σ) (dev : σ) (uploadedFilePath destination : String) :
    σ × Option GoError :=
  let fileName := filepathBase uploadedFilePath
  let command : BigipCommand :=
    { Command := "run"
      UtilCmdArgs := "-c " ++ String.mk [Char.ofNat 39] ++ "cat " ++ uploadedFilePath ++ " > " ++
        destination ++ fileName ++ String.mk [Char.ofNat 39] }
  match b.RunCommand dev command with
  | (dev, some err) => (dev, some ⟨"error running command: " ++ fmtErrW (some err)⟩)
  | (dev, none) => (dev, none)

/-- The loop of `uploadFilesToDestination` over the uploaded paths. -/
def runCatCommands {σ : Type} (b : UploadClient σ) (destination : String) :
    σ → List String → σ × Option GoError
  | dev, [] => (dev, none)
  | dev, uploadedFilePath :: rest =>
    match runCatCommand b dev uploadedFilePath destination with
    | (dev, some err) => (dev, some err)
    | (dev, none) => runCatCommands b destination dev rest

/-- Go `(*BigIP).uploadFilesToDestination`. -/
def uploadFilesToDestination {σ : Type} (b : UploadClient σ) (dev : σ) (files : List OsFile)
    (destination : String) : σ × Option GoError :=
  match uploadFiles b dev files with
  | (dev, .error err) => (dev, some err)
  | (dev, .ok uploadedFilePaths) => runCatCommands b destination dev uploadedFilePaths

/-- Go `(*BigIP).UploadExtensionFiles`; the constant `WORKSPACE_UPLOAD_PATH`, declared
outside the sources, is the parameter `workspaceUploadPath`. -/
def UploadExtensionFiles {σ : Type} (workspaceUploadPath : String) (b : UploadClient σ) (fs : HostFS)
    (dev : σ) (_ctx : Context) (opts : ExtensionConfig) (path : String) : σ × Option GoError :=
  let destination := workspaceUploadPath ++ "/" ++ opts.Partition ++ "/" ++ opts.WorkspaceName ++
    "/extensions/" ++ opts.Name ++ "/"
  match readFilesFromDirectory fs path with
  | .error err => (dev, some err)
  | .ok files => uploadFilesToDestination b dev files destination

/-! ## Specification-side notions -/

/-- The letter `c` is the pattern letter `p` in either letter case (`p` itself or its
upper-case form). -/
def sameLetterAnyCase (p c : Char) : Prop :=
  c = p ∨ c = p.toUpper

/-- The text `s` contains `pattern`, given in lower case, in any letter case: some
contiguous block of `s` agrees with `pattern` letter by letter up to case. -/
def containsAnyCase (s pattern : String) : Prop :=
  ∃ w, w <:+: s.toList ∧ List.Forall₂ sameLetterAnyCase pattern.toList w

/-- The text `s` contains the text `t`. -/
def containsText (s t : String) : Prop :=
  t.toList <:+: s.toList

/-- The value a written attribute reads back as when the written value is a string, an
integer, a bool, or a value of a defined string or bool type: the value in the Go type
of the schema, a defined type giving way to its underlying type. -/
def readsBackAs : GoValue → GoValue
  | .namedString _ s => .string s
  | .namedBool _ b => .bool b
  | v => v

/-- The written value is a string, an integer, a bool, or of a defined string or bool
type. -/
def isScalar : GoValue → Bool
  | .string _ => true
  | .int _ => true
  | .bool _ => true
  | .namedString _ _ => true
  | .namedBool _ _ => true
  | _ => false

/-- A forward zone as configured: its name and the names of its nameservers. -/
abbrev ForwardZoneConfig := String × List String

/-- The forward-zone map `d.Get("forward_zones")` holds for a configured zone: a
`map[string]interface{}` with the string `name` and the `[]interface{}` of strings
`nameservers`. -/
def rawForwardZone (z : ForwardZoneConfig) : GoValue :=
  .map [("name", .string z.1), ("nameservers", .slice (z.2.map GoValue.string))]

/-- What `d.Get` hands over for a configured nameserver name: the nil interface for
the empty string. -/
def readNameserver (n : String) : GoValue :=
  if n = "" then .nil else .string n

/-- What `d.Get("forward_zones")` hands over for a configured zone: the nil interface
for the zone with an empty name and no nameservers, otherwise the map of the zone. -/
def readForwardZone (z : ForwardZoneConfig) : GoValue :=
  if z.1 = "" ∧ z.2 = [] then .nil
  else .map [("name", .string z.1), ("nameservers", .slice (z.2.map readNameserver))]

/-- The map `item` holds the zone `z`: a string under "name" and a list of strings
under "nameservers". -/
def holdsForwardZone (item : GoValue) (z : ForwardZoneConfig) : Prop :=
  ∃ kv, item = .map kv ∧ kv.lookup "name" = some (.string z.1) ∧
    kv.lookup "nameservers" = some (.slice (z.2.map GoValue.string))

/-- The zone `z` in the representation `flattenDNSResolverForwardZones` produces: the
nameservers as a `[]string`. -/
def flatForwardZone (z : ForwardZoneConfig) : GoValue :=
  .map [("name", .string z.1), ("nameservers", .strings z.2)]

/-- The zone `z` as a `bigip.DNSResolverForwardZone`. -/
def structForwardZone (z : ForwardZoneConfig) : DNSResolverForwardZone :=
  { Name := z.1, NameServers := some (z.2.map (fun ns => { Name := ns })) }

/-- The attributes the create-read and update-read round trip is about. -/
def roundTripAttributes : List String :=
  ["description", "answer_default_zones", "cache_size", "randomize_query_name_case",
   "route_domain", "type", "use_ipv4", "use_ipv6", "use_tcp", "use_udp", "forward_zones"]

/-- The string an interface value of dynamic type `string` holds. -/
def GoValue.stringOf : GoValue → String
  | .string s => s
  | _ => ""

/-- The integer an interface value of dynamic type `int` holds. -/
def GoValue.intOf : GoValue → Int
  | .int n => n
  | _ => 0

/-- The diagnostics `diag.FromErr` makes of an error with the text `msg`: one error
diagnostic with that summary. -/
def errorDiagnostics (msg : String) : Diagnostics :=
  [{ Severity := .Error, Summary := msg, Detail := "" }]

/-- The map `flattenDNSResolverForwardZones` is to produce for a zone: its name, and the
names of its nameservers with the empty names removed, in order. -/
def flattenedZone (zone : DNSResolverForwardZone) : GoValue :=
  .map [("name", .string zone.Name),
        ("nameservers", .strings ((zone.NameServers.elems.map (fun ns => ns.Name)).filter (fun n => n ≠ "")))]

/-! ## Reference devices

Concrete clients on which the theorems are instantiated. -/

/-- A DNS resolver client that answers every `GetDNSResolver` with `get` and every
other call with the error `err`, on a device without state. -/
def fixedDNSResolverClient (get : Option DNSResolver × Option GoError) (err : Option GoError) :
    DNSResolverClient Unit where
  CreateDNSResolver := fun dev _ => (dev, err)
  GetDNSResolver := fun _ _ => get
  ModifyDNSResolver := fun dev _ _ => (dev, err)
  DeleteDNSResolver := fun dev _ => (dev, err)

/-- A DNS resolver client on a device that keeps the resolver last passed to
`CreateDNSResolver` or `ModifyDNSResolver` and returns it from `GetDNSResolver`. -/
def recordingDNSResolverClient : DNSResolverClient (Option DNSResolver) where
  CreateDNSResolver := fun _ config => (some config, none)
  GetDNSResolver := fun dev _ => (dev, none)
  ModifyDNSResolver := fun _ _ config => (some config, none)
  DeleteDNSResolver := fun _ _ => (none, none)

/-- A transport that answers `getForEntity` with the given lookups and every other
call with the error `err`, on a device without state. -/
def fixedBigIP (workspace : ILXWorkspace × Option GoError × Bool)
    (webtop : WebtopRead × Option GoError × Bool) (err : Option GoError) : BigIP Unit where
  getForEntityWorkspace := fun _ _ => workspace
  postWorkspace := fun dev _ => (dev, err)
  deleteWorkspace := fun dev _ => (dev, err)
  patchWorkspace := fun dev _ _ => (dev, err)
  getForEntityWebtop := fun _ _ => webtop
  postWebtop := fun dev _ => (dev, err)
  deleteWebtop := fun dev _ => (dev, err)
  patchWebtop := fun dev _ _ => (dev, err)

/-- An upload client on a device that keeps the list of files passed to `UploadFile`,
in order; every upload and every command succeeds. -/
def recordingUploadClient : UploadClient (List OsFile) where
  UploadFile := fun dev file =>
    (dev ++ [file], .ok { LocalFilePath := "/var/config/rest/downloads/" ++ filepathBase file.Name })
  RunCommand := fun dev _ => (dev, none)

/-- A host file system with the single directory `dir` holding `entries`, in which
every file can be opened. -/
def listingFS (dir : String) (entries : List DirEntry) : HostFS where
  ReadDir := fun path =>
    if path = dir then .ok entries else .error ⟨"open " ++ path ++ ": no such file or directory"⟩
  Open := fun _ => none

/-! ## Theorems -/

mutual
theorem GoValue.beq_eq : ∀ a b : GoValue, GoValue.beq a b = true → a = b
  | .nil, b => by cases b <;> simp [GoValue.beq]
  | .string _, b => by cases b <;> simp [GoValue.beq]
  | .int _, b => by cases b <;> simp [GoValue.beq]
  | .bool _, b => by cases b <;> simp [GoValue.beq]
  | .namedString _ _, b => by cases b <;> simp [GoValue.beq]
  | .namedBool _ _, b => by cases b <;> simp [GoValue.beq]
  | .strings _, b => by cases b <;> simp [GoValue.beq]
  | .nilSlice, b => by cases b <;> simp [GoValue.beq]
  | .slice xs, b => by
    cases b <;> simp [GoValue.beq]
    exact GoValue.beqList_eq xs _
  | .map xs, b => by
    cases b <;> simp [GoValue.beq]
    exact GoValue.beqEntries_eq xs _
theorem GoValue.beqList_eq : ∀ a b : List GoValue, GoValue.beqList a b = true → a = b
  | [], b => by cases b <;> simp [GoValue.beqList]
  | x :: xs, b => by
    cases b with
    | nil => simp [GoValue.beqList]
    | cons y ys =>
      simp only [GoValue.beqList, Bool.and_eq_true, List.cons.injEq]
      exact fun h => ⟨GoValue.beq_eq x y h.1, GoValue.beqList_eq xs ys h.2⟩
theorem GoValue.beqEntries_eq : ∀ a b : List (String × GoValue), GoValue.beqEntries a b = true → a = b
  | [], b => by cases b <;> simp [GoValue.beqEntries]
  | (j, x) :: xs, b => by
    cases b with
    | nil => simp [GoValue.beqEntries]
    | cons y ys =>
      obtain ⟨k, y⟩ := y
      simp only [GoValue.beqEntries, Bool.and_eq_true, List.cons.injEq, Prod.mk.injEq, beq_iff_eq]
      exact fun h => ⟨⟨h.1.1, GoValue.beq_eq x y h.1.2⟩, GoValue.beqEntries_eq xs ys h.2⟩
end

mutual
theorem GoValue.beq_refl : ∀ a : GoValue, GoValue.beq a a = true
  | .nil => by simp [GoValue.beq]
  | .string _ => by simp [GoValue.beq]
  | .int _ => by simp [GoValue.beq]
  | .bool _ => by simp [GoValue.beq]
  | .namedString _ _ => by simp [GoValue.beq]
  | .namedBool _ _ => by simp [GoValue.beq]
  | .strings _ => by simp [GoValue.beq]
  | .nilSlice => by simp [GoValue.beq]
  | .slice xs => by simp [GoValue.beq, GoValue.beqList_refl xs]
  | .map xs => by simp [GoValue.beq, GoValue.beqEntries_refl xs]
theorem GoValue.beqList_refl : ∀ a : List GoValue, GoValue.beqList a a = true
  | [] => by simp [GoValue.beqList]
  | x :: xs => by simp [GoValue.beqList, GoValue.beq_refl x, GoValue.beqList_refl xs]
theorem GoValue.beqEntries_refl : ∀ a : List (String × GoValue), GoValue.beqEntries a a = true
  | [] => by simp [GoValue.beqEntries]
  | (_, x) :: xs => by simp [GoValue.beqEntries, GoValue.beq_refl x, GoValue.beqEntries_refl xs]
end

theorem GoValue.beq_iff (a b : GoValue) : GoValue.beq a b = true ↔ a = b :=
  ⟨GoValue.beq_eq a b, fun h => h ▸ GoValue.beq_refl a⟩

instance : DecidableEq GoValue := fun a b => decidable_of_iff _ (GoValue.beq_iff a b)

/-! ### `isDNSResolverNotFound` -/

theorem hasInfix_iff (s sub : List Char) : hasInfix s sub = true ↔ sub <:+: s := by
  induction s with
  | nil => cases sub <;> simp [hasInfix]
  | cons c s ih =>
    rw [hasInfix, Bool.or_eq_true, ih, List.infix_cons_iff, List.isPrefixOf_iff_prefix]

theorem stringsContains_iff (s substr : String) :
    stringsContains s substr = true ↔ substr.toList <:+: s.toList :=
  hasInfix_iff _ _

theorem infix_map_iff_exists {α β : Type} (f : α → β) (l : List β) (s : List α) :
    l <:+: s.map f ↔ ∃ w, w <:+: s ∧ w.map f = l := by
  constructor
  · rintro ⟨a, b, h⟩
    obtain ⟨ab, b', hs, hab, -⟩ := List.map_eq_append_iff.mp h.symm
    obtain ⟨a', w, rfl, -, hw⟩ := List.map_eq_append_iff.mp hab
    exact ⟨w, ⟨a', b', hs.symm⟩, hw⟩
  · rintro ⟨w, hw, rfl⟩
    exact hw.map f

theorem map_eq_iff_forall₂ {α β : Type} (f : α → β) (R : β → α → Prop) :
    ∀ (pat : List β) (w : List α), (∀ p ∈ pat, ∀ c, f c = p ↔ R p c) →
      (w.map f = pat ↔ List.Forall₂ R pat w)
  | [], w, _ => by cases w <;> simp
  | p :: pat, [], _ => by simp
  | p :: pat, c :: w, h => by
    have ih := map_eq_iff_forall₂ f R pat w (fun q hq => h q (List.mem_cons_of_mem _ hq))
    simp only [List.map_cons, List.cons.injEq, List.forall₂_cons, ih,
      h p (List.mem_cons_self _ _) c]

theorem unicodeToLower_ascii (ct : Char → Char) (c : Char) (hc : c.toNat ≤ 0x7F) :
    unicodeToLower ct c = unicodeToLower id c := by
  simp only [unicodeToLower, if_pos hc]

theorem unicodeToLower_eq_iff (ct : Char → Char)
    (hct : ∀ r : Char, 0x7F < r.toNat → ct r ∉ "not found".toList)
    (p : Char) (hp : p ∈ "not found".toList) (c : Char) :
    unicodeToLower ct c = p ↔ sameLetterAnyCase p c := by
  unfold sameLetterAnyCase
  simp only [String.toList, List.mem_cons, List.mem_singleton, List.not_mem_nil, or_false] at hp
  by_cases hc : c.toNat ≤ 0x7F
  · rw [unicodeToLower_ascii ct c hc]
    obtain ⟨n, hn, rfl⟩ : ∃ n, n ≤ 127 ∧ c = Char.ofNat n :=
      ⟨c.toNat, hc, (Char.ofNat_toNat c).symm⟩
    clear hc hct
    interval_cases n <;> rcases hp with rfl | rfl | rfl | rfl | rfl | rfl | rfl | rfl | rfl <;> decide
  · have hlt : 0x7F < c.toNat := Nat.lt_of_not_le hc
    have h1 : unicodeToLower ct c = ct c := by simp only [unicodeToLower, if_neg hc]
    have h2 : ct c ≠ p := by
      intro h
      apply hct c hlt
      rw [h]
      simp only [String.toList, List.mem_cons, List.mem_singleton, List.not_mem_nil, or_false]
      exact hp
    rw [h1]
    constructor
    · exact fun h => absurd h h2
    · intro h
      exfalso
      rcases hp with rfl | rfl | rfl | rfl | rfl | rfl | rfl | rfl | rfl <;>
        rcases h with rfl | rfl <;> exact absurd hlt (by decide)

theorem stringsContains_toLower_iff (ct : Char → Char)
    (hct : ∀ r : Char, 0x7F < r.toNat → ct r ∉ "not found".toList) (msg : String) :
    stringsContains (stringsToLower ct msg) "not found" = true ↔ containsAnyCase msg "not found" := by
  rw [stringsContains_iff, stringsToLower, containsAnyCase]
  show "not found".toList <:+: msg.toList.map (unicodeToLower ct) ↔ _
  rw [infix_map_iff_exists]
  constructor
  · rintro ⟨w, hw, h⟩
    exact ⟨w, hw, (map_eq_iff_forall₂ _ _ _ w (fun p hp c => unicodeToLower_eq_iff ct hct p hp c)).mp h⟩
  · rintro ⟨w, hw, h⟩
    exact ⟨w, hw, (map_eq_iff_forall₂ _ _ _ w (fun p hp c => unicodeToLower_eq_iff ct hct p hp c)).mpr h⟩

theorem id_avoids_not_found : ∀ r : Char, 0x7F < r.toNat → id r ∉ "not found".toList := by
  intro r h hm
  simp only [id, String.toList, List.mem_cons, List.mem_singleton, List.not_mem_nil, or_false] at hm
  rcases hm with rfl | rfl | rfl | rfl | rfl | rfl | rfl | rfl | rfl <;> exact absurd h (by decide)

/-- C3: `isDNSResolverNotFound` returns false for a nil error, and for a non-nil error it
returns true exactly when the message contains "01020036", or contains "404", or
contains "not found" in any letter case. The Unicode case tables above ASCII are a
parameter; they never produce a letter of "not found". -/
theorem isDNSResolverNotFound_iff_substring (caseTable : Char → Char)
    (hTable : ∀ r : Char, 0x7F < r.toNat → caseTable r ∉ "not found".toList) :
    isDNSResolverNotFound caseTable none = false ∧
      ∀ e : GoError, isDNSResolverNotFound caseTable (some e) = true ↔
        (containsText e.msg "01020036" ∨ containsText e.msg "404" ∨
          containsAnyCase e.msg "not found") := by
  refine ⟨rfl, fun e => ?_⟩
  simp only [isDNSResolverNotFound, Bool.or_eq_true, stringsContains_toLower_iff caseTable hTable,
    stringsContains_iff, containsText]
  tauto

/-- C3, on the identity case table and the message "Object Not Found". -/
theorem isDNSResolverNotFound_iff_substring_witness :
    (∀ r : Char, 0x7F < r.toNat → id r ∉ "not found".toList) ∧
      isDNSResolverNotFound id none = false ∧
      (isDNSResolverNotFound id (some ⟨"Object Not Found"⟩) = true ↔
        (containsText "Object Not Found" "01020036" ∨ containsText "Object Not Found" "404" ∨
          containsAnyCase "Object Not Found" "not found")) :=
  ⟨id_avoids_not_found, (isDNSResolverNotFound_iff_substring id id_avoids_not_found).1,
    (isDNSResolverNotFound_iff_substring id id_avoids_not_found).2 ⟨"Object Not Found"⟩⟩

/-! ### DNS resolver read and delete -/

theorem ResourceData.Set_id (d : ResourceData) (key : String) (value : GoValue) :
    (d.Set key value).1.id = d.id := by
  unfold ResourceData.Set
  split
  · rfl
  · split <;> rfl

/-- C4: `resourceBigipNetDnsResolverRead` drops the resource from state on not-found and
only then. When `GetDNSResolver` fails with an error accepted by
`isDNSResolverNotFound`, or returns a nil resolver and no error, the ID becomes "", the
attributes are untouched and there are no diagnostics; when it fails with another
error, one error diagnostic is returned and the resource data is unchanged; when it
returns a resolver, the ID is unchanged. -/
theorem resourceBigipNetDnsResolverRead_not_found {σ : Type} (caseTable : Char → Char)
    (client : DNSResolverClient σ) (dev : σ) (d : ResourceData) :
    (∀ r e, client.GetDNSResolver dev d.Id = (r, some e) →
        isDNSResolverNotFound caseTable (some e) = true →
        (resourceBigipNetDnsResolverRead caseTable client dev d).1.id = "" ∧
        (resourceBigipNetDnsResolverRead caseTable client dev d).1.attrs = d.attrs ∧
        (resourceBigipNetDnsResolverRead caseTable client dev d).2 = []) ∧
    (client.GetDNSResolver dev d.Id = (none, none) →
        (resourceBigipNetDnsResolverRead caseTable client dev d).1.id = "" ∧
        (resourceBigipNetDnsResolverRead caseTable client dev d).1.attrs = d.attrs ∧
        (resourceBigipNetDnsResolverRead caseTable client dev d).2 = []) ∧
    (∀ r e, client.GetDNSResolver dev d.Id = (r, some e) →
        isDNSResolverNotFound caseTable (some e) = false →
        (resourceBigipNetDnsResolverRead caseTable client dev d).1 = d ∧
        (resourceBigipNetDnsResolverRead caseTable client dev d).2 =
          [{ Severity := .Error,
             Summary := "error retrieving DNS resolver " ++ d.Id ++ ": " ++ e.msg,
             Detail := "" }]) ∧
    (∀ r, client.GetDNSResolver dev d.Id = (some r, none) →
        (resourceBigipNetDnsResolverRead caseTable client dev d).1.id = d.id ∧
        (resourceBigipNetDnsResolverRead caseTable client dev d).2 = []) := by
  refine ⟨?_, ?_, ?_, ?_⟩
  · intro r e hget hnf
    simp [resourceBigipNetDnsResolverRead, hget, hnf, ResourceData.SetId]
  · intro hget
    simp [resourceBigipNetDnsResolverRead, hget, ResourceData.SetId]
  · intro r e hget hnf
    simp [resourceBigipNetDnsResolverRead, hget, hnf, diagFromErr, fmtErrV]
  · intro r hget
    simp only [resourceBigipNetDnsResolverRead, hget, ResourceData.Set_id, and_true]
    split <;> simp only [ResourceData.Set_id]

/-- C4, on a device that answers with the error "01020036:3: The requested DNS
Resolver was not found." (accepted), with a nil resolver, with the error "connection
refused" (not accepted), and with a resolver. -/
theorem resourceBigipNetDnsResolverRead_not_found_witness :
    (let client := fixedDNSResolverClient (none, some ⟨"01020036:3: The requested DNS Resolver was not found."⟩) none
     let d : ResourceData := ⟨resourceBigipNetDnsResolverSchema, "/Common/r1", [("description", .string "a")]⟩
     (resourceBigipNetDnsResolverRead id client () d).1.id = "" ∧
     (resourceBigipNetDnsResolverRead id client () d).1.attrs = d.attrs ∧
     (resourceBigipNetDnsResolverRead id client () d).2 = []) ∧
    (let client := fixedDNSResolverClient (none, none) none
     let d : ResourceData := ⟨resourceBigipNetDnsResolverSchema, "/Common/r1", [("description", .string "a")]⟩
     (resourceBigipNetDnsResolverRead id client () d).1.id = "" ∧
     (resourceBigipNetDnsResolverRead id client () d).1.attrs = d.attrs ∧
     (resourceBigipNetDnsResolverRead id client () d).2 = []) ∧
    (let client := fixedDNSResolverClient (none, some ⟨"connection refused"⟩) none
     let d : ResourceData := ⟨resourceBigipNetDnsResolverSchema, "/Common/r1", [("description", .string "a")]⟩
     (resourceBigipNetDnsResolverRead id client () d).1 = d ∧
     (resourceBigipNetDnsResolverRead id client () d).2 =
       [{ Severity := .Error,
          Summary := "error retrieving DNS resolver " ++ d.Id ++ ": " ++ "connection refused",
          Detail := "" }]) ∧
    (let client := fixedDNSResolverClient (some { Name := "/Common/r1" }, none) none
     let d : ResourceData := ⟨resourceBigipNetDnsResolverSchema, "/Common/r1", [("description", .string "a")]⟩
     (resourceBigipNetDnsResolverRead id client () d).1.id = d.id ∧
     (resourceBigipNetDnsResolverRead id client () d).2 = []) :=
  ⟨(resourceBigipNetDnsResolverRead_not_found id
      (fixedDNSResolverClient (none, some ⟨"01020036:3: The requested DNS Resolver was not found."⟩) none) ()
      ⟨resourceBigipNetDnsResolverSchema, "/Common/r1", [("description", .string "a")]⟩).1 _ _ rfl (by decide),
   (resourceBigipNetDnsResolverRead_not_found id (fixedDNSResolverClient (none, none) none) ()
      ⟨resourceBigipNetDnsResolverSchema, "/Common/r1", [("description", .string "a")]⟩).2.1 rfl,
   (resourceBigipNetDnsResolverRead_not_found id
      (fixedDNSResolverClient (none, some ⟨"connection refused"⟩) none) ()
      ⟨resourceBigipNetDnsResolverSchema, "/Common/r1", [("description", .string "a")]⟩).2.2.1 _ _ rfl (by decide),
   (resourceBigipNetDnsResolverRead_not_found id
      (fixedDNSResolverClient (some { Name := "/Common/r1" }, none) none) ()
      ⟨resourceBigipNetDnsResolverSchema, "/Common/r1", [("description", .string "a")]⟩).2.2.2 _ rfl⟩

/-- C5: `resourceBigipNetDnsResolverDelete` sets the ID to "" and returns no diagnostics
when `DeleteDNSResolver` succeeds or fails with an error accepted by
`isDNSResolverNotFound`; for every other error it returns one error diagnostic and
leaves the resource data, the ID included, unchanged. -/
theorem resourceBigipNetDnsResolverDelete_idempotent {σ : Type} (caseTable : Char → Char)
    (client : DNSResolverClient σ) (dev : σ) (d : ResourceData) :
    (∀ dev', client.DeleteDNSResolver dev d.Id = (dev', none) →
        resourceBigipNetDnsResolverDelete caseTable client dev d = (dev', { d with id := "" }, [])) ∧
    (∀ dev' e, client.DeleteDNSResolver dev d.Id = (dev', some e) →
        isDNSResolverNotFound caseTable (some e) = true →
        resourceBigipNetDnsResolverDelete caseTable client dev d = (dev', { d with id := "" }, [])) ∧
    (∀ dev' e, client.DeleteDNSResolver dev d.Id = (dev', some e) →
        isDNSResolverNotFound caseTable (some e) = false →
        resourceBigipNetDnsResolverDelete caseTable client dev d =
          (dev', d, [{ Severity := .Error,
                       Summary := "error deleting DNS resolver " ++ d.Id ++ ": " ++ e.msg,
                       Detail := "" }])) := by
  refine ⟨?_, ?_, ?_⟩
  · intro dev' h
    simp [resourceBigipNetDnsResolverDelete, h, ResourceData.SetId]
  · intro dev' e h hnf
    simp [resourceBigipNetDnsResolverDelete, h, hnf, ResourceData.SetId]
  · intro dev' e h hnf
    simp [resourceBigipNetDnsResolverDelete, h, hnf, diagFromErr, fmtErrV]

/-- C5, on a device whose delete succeeds, one whose delete answers "404 page not
found" and one whose delete answers "connection refused". -/
theorem resourceBigipNetDnsResolverDelete_idempotent_witness :
    (let d : ResourceData := ⟨resourceBigipNetDnsResolverSchema, "/Common/r1", []⟩
     resourceBigipNetDnsResolverDelete id (fixedDNSResolverClient (none, none) none) () d =
       ((), { d with id := "" }, [])) ∧
    (let d : ResourceData := ⟨resourceBigipNetDnsResolverSchema, "/Common/r1", []⟩
     resourceBigipNetDnsResolverDelete id
         (fixedDNSResolverClient (none, none) (some ⟨"404 page not found"⟩)) () d =
       ((), { d with id := "" }, [])) ∧
    (let d : ResourceData := ⟨resourceBigipNetDnsResolverSchema, "/Common/r1", []⟩
     resourceBigipNetDnsResolverDelete id
         (fixedDNSResolverClient (none, none) (some ⟨"connection refused"⟩)) () d =
       ((), d, [{ Severity := .Error,
                  Summary := "error deleting DNS resolver " ++ d.Id ++ ": " ++ "connection refused",
                  Detail := "" }])) :=
  ⟨(resourceBigipNetDnsResolverDelete_idempotent id (fixedDNSResolverClient (none, none) none) ()
      ⟨resourceBigipNetDnsResolverSchema, "/Common/r1", []⟩).1 _ rfl,
   (resourceBigipNetDnsResolverDelete_idempotent id
      (fixedDNSResolverClient (none, none) (some ⟨"404 page not found"⟩)) ()
      ⟨resourceBigipNetDnsResolverSchema, "/Common/r1", []⟩).2.1 _ _ rfl (by decide),
   (resourceBigipNetDnsResolverDelete_idempotent id
      (fixedDNSResolverClient (none, none) (some ⟨"connection refused"⟩)) ()
      ⟨resourceBigipNetDnsResolverSchema, "/Common/r1", []⟩).2.2 _ _ rfl (by decide)⟩

/-! ### ILX workspace read -/

theorem BigIP.GetWorkspace_missing {σ : Type} (b : BigIP σ) (dev : σ) (ctx : Context) (path : String)
    (spc : ILXWorkspace) (err : Option GoError)
    (h : b.getForEntityWorkspace dev path = (spc, err, false)) :
    b.GetWorkspace dev ctx path = (none, some ⟨"workspace does not exist: " ++ fmtErrW err⟩) := by
  simp [BigIP.GetWorkspace, h]

theorem resourceBigIPILXWorkspaceRead_missing {σ : Type} (client : BigIP σ) (dev : σ) (ctx : Context)
    (d : ResourceData) (name : String) (spc : ILXWorkspace) (err : Option GoError)
    (hname : d.Get "name" = .string name)
    (h : client.getForEntityWorkspace dev name = (spc, err, false)) :
    resourceBigIPILXWorkspaceRead client dev ctx d =
      .ok (d, [{ Severity := .Error,
                 Summary := "error reading workspace workspace does not exist: " ++ fmtErrW err,
                 Detail := "" }]) := by
  simp only [resourceBigIPILXWorkspaceRead, hname, GoValue.assertString, bind, Except.bind,
    BigIP.GetWorkspace_missing client dev ctx name spc err h]
  rfl

/-- C6 (the code departs from the claim): for the workspace "ws1", which the entity
lookup reports as not existing (`exists = false`, no error), `GetWorkspace` returns an
error, so `resourceBigIPILXWorkspaceRead` returns an error diagnostic and leaves the
ID "ws1" in place instead of clearing it. -/
theorem resourceBigIPILXWorkspaceRead_missing_keeps_id :
    resourceBigIPILXWorkspaceRead (fixedBigIP ({}, none, false) ({}, none, false) none) () ⟨none⟩
        ⟨resourceBigIPILXWorkspaceSchema, "ws1", [("name", .string "ws1")]⟩ =
      .ok (⟨resourceBigIPILXWorkspaceSchema, "ws1", [("name", .string "ws1")]⟩,
        [{ Severity := .Error,
           Summary := "error reading workspace workspace does not exist: %!w(<nil>)",
           Detail := "" }]) := by
  rfl

/-! ### APM webtop resource -/

theorem ResourceData.Get_TypeString (d : ResourceData) (key : String)
    (h : d.schema.lookup key = some .TypeString) : ∃ s, d.Get key = .string s := by
  unfold ResourceData.Get
  rw [h]
  cases d.attrs.lookup key with
  | none => exact ⟨"", rfl⟩
  | some v => cases v <;> simp [writeValue, zeroValue, readValue]

theorem ResourceData.Get_TypeBool (d : ResourceData) (key : String)
    (h : d.schema.lookup key = some .TypeBool) : ∃ b, d.Get key = .bool b := by
  unfold ResourceData.Get
  rw [h]
  cases d.attrs.lookup key with
  | none => exact ⟨false, rfl⟩
  | some v => cases v <;> simp [writeValue, zeroValue, readValue]

theorem ResourceData.Get_TypeInt (d : ResourceData) (key : String)
    (h : d.schema.lookup key = some .TypeInt) : ∃ n, d.Get key = .int n := by
  unfold ResourceData.Get
  rw [h]
  cases d.attrs.lookup key with
  | none => exact ⟨0, rfl⟩
  | some v => cases v <;> simp [writeValue, zeroValue, readValue]

theorem webtopConfigFromResourceData_panics (id : String) (attrs : List (String × GoValue)) :
    webtopConfigFromResourceData ⟨resourceBigIPAPMWebtopSchema, id, attrs⟩ =
      .error "interface conversion: interface {} is string, not bigip.InitialState" := by
  obtain ⟨s1, h1⟩ := ResourceData.Get_TypeString ⟨resourceBigIPAPMWebtopSchema, id, attrs⟩
    "description" (by rfl)
  obtain ⟨s2, h2⟩ := ResourceData.Get_TypeString ⟨resourceBigIPAPMWebtopSchema, id, attrs⟩
    "customization_group" (by rfl)
  obtain ⟨s3, h3⟩ := ResourceData.Get_TypeString ⟨resourceBigIPAPMWebtopSchema, id, attrs⟩
    "initial_state" (by rfl)
  simp only [webtopConfigFromResourceData, h1, h2, h3, GoValue.assertString,
    GoValue.assertNamedString, bind, Except.bind]
  rfl

/-- C7 (the code departs from the claim): for every resource state of the webtop
schema, `resourceBigIPAPMWebtopUpdate` panics at the type assertion
`d.Get("initial_state").(bigip.InitialState)`, because `d.Get` holds a plain `string`;
`ModifyWebtop` is never called. -/
theorem resourceBigIPAPMWebtopUpdate_panics {σ : Type} (client : BigIP σ) (dev : σ) (ctx : Context)
    (id : String) (attrs : List (String × GoValue)) :
    resourceBigIPAPMWebtopUpdate client dev ctx ⟨resourceBigIPAPMWebtopSchema, id, attrs⟩ =
      .error "interface conversion: interface {} is string, not bigip.InitialState" := by
  simp only [resourceBigIPAPMWebtopUpdate, webtopConfigFromResourceData_panics, bind, Except.bind]

/-- C8 (the code departs from the claim): for every attribute set of the webtop schema,
`resourceBigIPAPMWebtopCreate` panics at the type assertion
`d.Get("initial_state").(bigip.InitialState)`; `CreateWebtop` is never reached. -/
theorem resourceBigIPAPMWebtopCreate_panics {σ : Type} (client : BigIP σ) (dev : σ) (ctx : Context)
    (id : String) (attrs : List (String × GoValue)) :
    resourceBigIPAPMWebtopCreate client dev ctx ⟨resourceBigIPAPMWebtopSchema, id, attrs⟩ =
      .error "interface conversion: interface {} is string, not bigip.InitialState" := by
  obtain ⟨s1, h1⟩ := ResourceData.Get_TypeString ⟨resourceBigIPAPMWebtopSchema, id, attrs⟩
    "name" (by rfl)
  obtain ⟨s2, h2⟩ := ResourceData.Get_TypeString ⟨resourceBigIPAPMWebtopSchema, id, attrs⟩
    "tm_partition" (by rfl)
  obtain ⟨s3, h3⟩ := ResourceData.Get_TypeString ⟨resourceBigIPAPMWebtopSchema, id, attrs⟩
    "partition" (by rfl)
  simp only [resourceBigIPAPMWebtopCreate, h1, h2, h3, GoValue.assertString,
    webtopConfigFromResourceData_panics, bind, Except.bind]

/-- C9 (the code departs from the claim): with the state holding description "old" and
the device returning the webtop "w1" with description "new", full path "/Common/w1"
and generation 7, `resourceBigIPAPMWebtopRead` succeeds and only sets the ID: the
attributes are the ones held before, so `description` still reads "old" and
`full_path` and `generation` read their zero values. -/
theorem resourceBigIPAPMWebtopRead_sets_only_id :
    resourceBigIPAPMWebtopRead
        (fixedBigIP ({}, none, false)
          ({ Name := "w1", Description := "new", CustomizationGroup := "/Common/g",
             FullPath := "/Common/w1", Generation := 7 }, none, true) none) () ⟨none⟩
        ⟨resourceBigIPAPMWebtopSchema, "", [("name", .string "w1"), ("description", .string "old")]⟩ =
      .ok (⟨resourceBigIPAPMWebtopSchema, "w1", [("name", .string "w1"), ("description", .string "old")]⟩, []) ∧
    ResourceData.Get ⟨resourceBigIPAPMWebtopSchema, "w1", [("name", .string "w1"), ("description", .string "old")]⟩
        "description" = .string "old" ∧
    ResourceData.Get ⟨resourceBigIPAPMWebtopSchema, "w1", [("name", .string "w1"), ("description", .string "old")]⟩
        "full_path" = .string "" ∧
    ResourceData.Get ⟨resourceBigIPAPMWebtopSchema, "w1", [("name", .string "w1"), ("description", .string "old")]⟩
        "generation" = .int 0 := by
  refine ⟨rfl, ?_, ?_, ?_⟩ <;> decide

/-! ### APM webtop data source -/

theorem ResourceData.Set_ok_inv (d d' : ResourceData) (key : String) (value : GoValue)
    (h : d.Set key value = (d', none)) :
    ∃ t w, d.schema.lookup key = some t ∧ writeValue t value = some w ∧
      d' = { d with attrs := (key, w) :: d.attrs } := by
  unfold ResourceData.Set at h
  cases hs : d.schema.lookup key with
  | none => simp [hs] at h
  | some t =>
    cases hw : writeValue t value with
    | none => simp [hs, hw] at h
    | some w =>
      simp only [hs, hw, Prod.mk.injEq, and_true] at h
      exact ⟨t, w, rfl, hw, h.symm⟩

theorem writeValue_scalar (t : Schema) (v w : GoValue) (hv : isScalar v = true)
    (h : writeValue t v = some w) : w = readsBackAs v ∧ writeValue t w = some w := by
  cases t <;> cases v <;> simp_all [writeValue, isScalar, readsBackAs, GoValue.sliceElems] <;>
    subst h <;> simp [writeValue]

theorem readValue_scalar (t : Schema) (v w : GoValue) (hv : isScalar v = true)
    (h : writeValue t v = some w) : readValue t w = w := by
  cases t <;> cases v <;> simp_all [writeValue, isScalar, GoValue.sliceElems] <;>
    subst h <;> simp [readValue]

theorem setEach_lookup :
    ∀ (writes : List (String × GoValue)) (d r : ResourceData),
      setEach d writes = (r, []) → (writes.map Prod.fst).Nodup →
      r.schema = d.schema ∧ r.id = d.id ∧
      (∀ key, key ∉ writes.map Prod.fst → r.attrs.lookup key = d.attrs.lookup key) ∧
      ∀ key value, (key, value) ∈ writes →
        ∃ t w, d.schema.lookup key = some t ∧ writeValue t value = some w ∧
          r.attrs.lookup key = some w
  | [], d, r, h, _ => by
    simp only [setEach, Prod.mk.injEq, and_true] at h
    subst h
    simp
  | (k, v) :: rest, d, r, h, hnd => by
    rw [setEach] at h
    cases hset : d.Set k v with
    | mk d1 e =>
      cases e with
      | some err => simp [hset, diagFromErr] at h
      | none =>
        simp only [hset] at h
        obtain ⟨t, w, hs, hw, rfl⟩ := ResourceData.Set_ok_inv d d1 k v hset
        simp only [List.map_cons, List.nodup_cons] at hnd
        obtain ⟨hsch, hid, hout, hin⟩ := setEach_lookup rest _ r h hnd.2
        refine ⟨hsch, hid, ?_, ?_⟩
        · intro key hkey
          simp only [List.map_cons, List.mem_cons, not_or] at hkey
          rw [hout key hkey.2]
          have hne : (key == k) = false := by simpa using hkey.1
          simp [List.lookup, hne]
        · intro key value hmem
          simp only [List.mem_cons, Prod.mk.injEq] at hmem
          rcases hmem with ⟨rfl, rfl⟩ | hmem
          · refine ⟨t, w, hs, hw, ?_⟩
            rw [hout key hnd.1]
            simp [List.lookup]
          · exact hin key value hmem

theorem setEach_get (writes : List (String × GoValue)) (d r : ResourceData)
    (h : setEach d writes = (r, [])) (hnd : (writes.map Prod.fst).Nodup)
    (key : String) (value : GoValue) (hmem : (key, value) ∈ writes)
    (hv : isScalar value = true) : r.Get key = readsBackAs value := by
  obtain ⟨hsch, -, -, hin⟩ := setEach_lookup writes d r h hnd
  obtain ⟨t, w, hs, hw, hl⟩ := hin key value hmem
  have hr := readValue_scalar t value w hv hw
  obtain ⟨rfl, hw'⟩ := writeValue_scalar t value w hv hw
  simp only [ResourceData.Get, hsch, hs, hl, hw', hr]

theorem setEach_diags_nil_or_error :
    ∀ (writes : List (String × GoValue)) (d : ResourceData),
      (setEach d writes).2 = [] ∨
        ∃ e : GoError, (setEach d writes).2 = [{ Severity := .Error, Summary := e.msg, Detail := "" }]
  | [], d => Or.inl rfl
  | (k, v) :: rest, d => by
    rw [setEach]
    cases hset : d.Set k v with
    | mk d1 e =>
      cases e with
      | some err => exact Or.inr ⟨err, rfl⟩
      | none => exact setEach_diags_nil_or_error rest d1

theorem setAPMWebtopResourceData_dataSourceSchema (id : String) (attrs : List (String × GoValue))
    (webtop : WebtopRead) :
    (setAPMWebtopResourceData ⟨dataSourceBigIPAPMWebtopSchema, id, attrs⟩ webtop).2 = [] := by
  simp [setAPMWebtopResourceData, setEach, webtopAttributeWrites, ResourceData.Set, List.lookup,
    writeValue, dataSourceBigIPAPMWebtopSchema]

theorem webtopAttributeWrites_nodup (webtop : WebtopRead) :
    ((webtopAttributeWrites webtop).map Prod.fst).Nodup := by
  simp only [webtopAttributeWrites, List.map_cons, List.map_nil]
  decide

theorem setAPMWebtopResourceData_maps_fields (d : ResourceData) (webtop : WebtopRead) :
    ((setAPMWebtopResourceData d webtop).2 = [] →
      (setAPMWebtopResourceData d webtop).1.Get "name" = .string webtop.Name ∧
      (setAPMWebtopResourceData d webtop).1.Get "full_path" = .string webtop.FullPath ∧
      (setAPMWebtopResourceData d webtop).1.Get "generation" = .int webtop.Generation ∧
      (setAPMWebtopResourceData d webtop).1.Get "self_link" = .string webtop.SelfLink ∧
      (setAPMWebtopResourceData d webtop).1.Get "customization_group" =
        .string webtop.CustomizationGroup ∧
      (setAPMWebtopResourceData d webtop).1.Get "description" = .string webtop.Description ∧
      (setAPMWebtopResourceData d webtop).1.Get "fallback_section_initial_state" =
        .string webtop.InitialState ∧
      (setAPMWebtopResourceData d webtop).1.Get "link_type" = .string webtop.LinkType ∧
      (setAPMWebtopResourceData d webtop).1.Get "location_specific" =
        .bool webtop.LocationSpecific ∧
      (setAPMWebtopResourceData d webtop).1.Get "minimize_to_tray" =
        .bool webtop.MinimizeToTray ∧
      (setAPMWebtopResourceData d webtop).1.Get "show_search" = .bool webtop.ShowSearch ∧
      (setAPMWebtopResourceData d webtop).1.Get "show_url_entry_field" =
        .bool webtop.UrlEntryField ∧
      (setAPMWebtopResourceData d webtop).1.Get "warn_when_closed" =
        .bool webtop.WarningOnClose ∧
      (setAPMWebtopResourceData d webtop).1.Get "webtop_type" = .string webtop.Type_) ∧
    ((setAPMWebtopResourceData d webtop).2 ≠ [] →
      ∃ e : GoError,
        (setAPMWebtopResourceData d webtop).2 = [{ Severity := .Error, Summary := e.msg, Detail := "" }]) ∧
    (d.schema = dataSourceBigIPAPMWebtopSchema → (setAPMWebtopResourceData d webtop).2 = []) := by
  refine ⟨?_, ?_, ?_⟩
  · intro hnil
    cases hsd : setAPMWebtopResourceData d webtop with
    | mk d1 dg =>
      rw [hsd] at hnil
      have hdg : dg = [] := hnil
      subst hdg
      have hg : ∀ key value, (key, value) ∈ webtopAttributeWrites webtop →
          isScalar value = true → d1.Get key = readsBackAs value :=
        fun key value hmem hv =>
          setEach_get _ d d1 hsd (webtopAttributeWrites_nodup webtop) key value hmem hv
      refine ⟨?_, ?_, ?_, ?_, ?_, ?_, ?_, ?_, ?_, ?_, ?_, ?_, ?_, ?_⟩
      · exact hg "name" (.string webtop.Name) (by simp [webtopAttributeWrites]) rfl
      · exact hg "full_path" (.string webtop.FullPath) (by simp [webtopAttributeWrites]) rfl
      · exact hg "generation" (.int webtop.Generation) (by simp [webtopAttributeWrites]) rfl
      · exact hg "self_link" (.string webtop.SelfLink) (by simp [webtopAttributeWrites]) rfl
      · exact hg "customization_group" (.string webtop.CustomizationGroup) (by simp [webtopAttributeWrites]) rfl
      · exact hg "description" (.string webtop.Description) (by simp [webtopAttributeWrites]) rfl
      · exact hg "fallback_section_initial_state" (.namedString "bigip.InitialState" webtop.InitialState) (by simp [webtopAttributeWrites]) rfl
      · exact hg "link_type" (.namedString "bigip.LinkType" webtop.LinkType) (by simp [webtopAttributeWrites]) rfl
      · exact hg "location_specific" (.namedBool "bigip.BooledString" webtop.LocationSpecific) (by simp [webtopAttributeWrites]) rfl
      · exact hg "minimize_to_tray" (.namedBool "bigip.BooledString" webtop.MinimizeToTray) (by simp [webtopAttributeWrites]) rfl
      · exact hg "show_search" (.namedBool "bigip.BooledString" webtop.ShowSearch) (by simp [webtopAttributeWrites]) rfl
      · exact hg "show_url_entry_field" (.namedBool "bigip.BooledString" webtop.UrlEntryField) (by simp [webtopAttributeWrites]) rfl
      · exact hg "warn_when_closed" (.namedBool "bigip.BooledString" webtop.WarningOnClose) (by simp [webtopAttributeWrites]) rfl
      · exact hg "webtop_type" (.namedString "bigip.WebtopType" webtop.Type_) (by simp [webtopAttributeWrites]) rfl
  · intro hne
    rcases setEach_diags_nil_or_error (webtopAttributeWrites webtop) d with h | h
    · exact absurd h hne
    · exact h
  · intro hs
    have h := setAPMWebtopResourceData_dataSourceSchema d.id d.attrs webtop
    rw [← hs] at h
    exact h

/-- C10 (the code departs from the claim): with the name "w1" configured and the device
returning the webtop "w1" of type "full" without an error,
`dataSourceBigIPAPMWebtopRead` does not succeed: its call of
`setAPMWebtopResourceData` with the `*bigip.WebtopRead` of `GetWebtop` is ill-typed, so
the handler sets no ID and maps no field. `setAPMWebtopResourceData` itself, given
that webtop as the value its signature asks for, reports no failure and leaves each
attribute reading as its response field. -/
theorem dataSourceBigIPAPMWebtopRead_ill_typed_call :
    dataSourceBigIPAPMWebtopRead
        (fixedBigIP ({}, none, false)
          ({ Name := "w1", FullPath := "/Common/w1", Type_ := "full", ShowSearch := true,
             Generation := 7 }, none, true) none) () ⟨none⟩
        ⟨dataSourceBigIPAPMWebtopSchema, "", [("name", .string "w1")]⟩ =
      .error "cannot use webtop (variable of type *bigip.WebtopRead) as bigip.WebtopRead value in argument to setAPMWebtopResourceData" ∧
    (setAPMWebtopResourceData ⟨dataSourceBigIPAPMWebtopSchema, "", [("name", .string "w1")]⟩
        { Name := "w1", FullPath := "/Common/w1", Type_ := "full", ShowSearch := true,
          Generation := 7 }).2 = [] ∧
    (setAPMWebtopResourceData ⟨dataSourceBigIPAPMWebtopSchema, "", [("name", .string "w1")]⟩
        { Name := "w1", FullPath := "/Common/w1", Type_ := "full", ShowSearch := true,
          Generation := 7 }).1.Get "full_path" = .string "/Common/w1" ∧
    (setAPMWebtopResourceData ⟨dataSourceBigIPAPMWebtopSchema, "", [("name", .string "w1")]⟩
        { Name := "w1", FullPath := "/Common/w1", Type_ := "full", ShowSearch := true,
          Generation := 7 }).1.Get "generation" = .int 7 ∧
    (setAPMWebtopResourceData ⟨dataSourceBigIPAPMWebtopSchema, "", [("name", .string "w1")]⟩
        { Name := "w1", FullPath := "/Common/w1", Type_ := "full", ShowSearch := true,
          Generation := 7 }).1.Get "show_search" = .bool true ∧
    (setAPMWebtopResourceData ⟨dataSourceBigIPAPMWebtopSchema, "", [("name", .string "w1")]⟩
        { Name := "w1", FullPath := "/Common/w1", Type_ := "full", ShowSearch := true,
          Generation := 7 }).1.Get "webtop_type" = .string "full" := by
  refine ⟨rfl, ?_, ?_, ?_, ?_, ?_⟩ <;> decide

/-! ### Forward-zone conversion -/

theorem listToStringSlice_strings : ∀ ns : List String,
    listToStringSlice (ns.map GoValue.string) = .ok ns
  | [] => rfl
  | n :: ns => by
    simp only [List.map_cons, listToStringSlice, GoValue.assertString,
      listToStringSlice_strings ns]

theorem expandForwardZone_holds (item : GoValue) (z : ForwardZoneConfig)
    (h : holdsForwardZone item z) : expandForwardZone item = .ok (some (structForwardZone z)) := by
  obtain ⟨kv, rfl, hn, hs⟩ := h
  simp only [expandForwardZone, GoValue.asMap, hn, hs, GoValue.assertString, GoValue.beq,
    GoValue.asSlice, GoSlice.elems, listToStringSlice_strings, structForwardZone]
  rfl

theorem expandForwardZoneItems_holds : ∀ (raw : List GoValue) (zs : List ForwardZoneConfig),
    List.Forall₂ holdsForwardZone raw zs →
    expandForwardZoneItems raw = .ok (zs.map structForwardZone)
  | _, _, .nil => rfl
  | _, _, .cons h hs => by
    simp only [expandForwardZoneItems, expandForwardZone_holds _ _ h,
      expandForwardZoneItems_holds _ _ hs, Option.toList, List.map_cons, List.singleton_append]

theorem flattenNameServers_struct (ns : List String) :
    flattenNameServers (some (ns.map (fun n => ({ Name := n } : DNSResolverNameserver)))) =
      ns.filter (fun n => n ≠ "") := by
  simp [flattenNameServers, GoSlice.elems, List.filter_map, Function.comp_def]

theorem filter_nonempty_self (ns : List String) (h : "" ∉ ns) :
    ns.filter (fun n => n ≠ "") = ns := by
  rw [List.filter_eq_self]
  intro n hn
  simp only [ne_eq, decide_not, Bool.not_eq_true', decide_eq_false_iff_not]
  rintro rfl
  exact h hn

theorem flattenDNSResolverForwardZones_struct (zs : List ForwardZoneConfig) (hne : zs ≠ []) :
    flattenDNSResolverForwardZones (some (zs.map structForwardZone)) =
      some (zs.map (fun z => flatForwardZone (z.1, z.2.filter (fun n => n ≠ "")))) := by
  have hlen : (GoSlice.len (some (zs.map structForwardZone))) ≠ 0 := by
    cases zs with
    | nil => exact absurd rfl hne
    | cons z zs => simp [GoSlice.len]
  simp only [flattenDNSResolverForwardZones, if_neg hlen, GoSlice.elems, List.map_map]
  congr 1
  apply List.map_congr_left
  intro z _
  simp only [Function.comp, structForwardZone, flattenNameServers_struct, flatForwardZone]

theorem expandDNSResolverForwardZones_holds (raw : List GoValue) (zs : List ForwardZoneConfig)
    (hne : raw ≠ []) (h : List.Forall₂ holdsForwardZone raw zs) :
    expandDNSResolverForwardZones (some raw) = .ok (some (zs.map structForwardZone)) := by
  have hlen : GoSlice.len (some raw) ≠ 0 := by
    cases raw with
    | nil => exact absurd rfl hne
    | cons x xs => simp [GoSlice.len]
  simp only [expandDNSResolverForwardZones, if_neg hlen, GoSlice.elems,
    expandForwardZoneItems_holds raw zs h]

/-- C2 as stated fails: the forward zone "example.com" with the nameservers "1.1.1.1:53"
and "" expands to a zone with both nameservers, and flattening that zone yields the
zone with the single nameserver "1.1.1.1:53", which is not the zone that went in. -/
theorem flatten_expand_drops_empty_nameserver :
    holdsForwardZone (rawForwardZone ("example.com", ["1.1.1.1:53", ""])) ("example.com", ["1.1.1.1:53", ""]) ∧
    expandDNSResolverForwardZones (some [rawForwardZone ("example.com", ["1.1.1.1:53", ""])]) =
      .ok (some [{ Name := "example.com", NameServers := some [⟨"1.1.1.1:53"⟩, ⟨""⟩] }]) ∧
    flattenDNSResolverForwardZones
        (some [{ Name := "example.com", NameServers := some [⟨"1.1.1.1:53"⟩, ⟨""⟩] }]) =
      some [flatForwardZone ("example.com", ["1.1.1.1:53"])] ∧
    flattenDNSResolverForwardZones
        (some [{ Name := "example.com", NameServers := some [⟨"1.1.1.1:53"⟩, ⟨""⟩] }]) ≠
      some [flatForwardZone ("example.com", ["1.1.1.1:53", ""])] := by
  refine ⟨⟨_, rfl, rfl, rfl⟩, rfl, by decide, by decide⟩

/-- C2 (amended): for every non-empty list `raw` of forward-zone maps, each holding a
string "name" and a list of strings "nameservers" none of which is the empty string,
`expandDNSResolverForwardZones` returns and `flattenDNSResolverForwardZones` of its
result is the same zones in the same order, each with the same nameservers in the same
order. -/
theorem flatten_expand_forward_zones (raw : List GoValue) (zs : List ForwardZoneConfig)
    (hne : raw ≠ []) (hraw : List.Forall₂ holdsForwardZone raw zs)
    (hns : ∀ z ∈ zs, "" ∉ z.2) :
    ∃ zones, expandDNSResolverForwardZones (some raw) = .ok zones ∧
      flattenDNSResolverForwardZones zones = some (zs.map flatForwardZone) := by
  refine ⟨_, expandDNSResolverForwardZones_holds raw zs hne hraw, ?_⟩
  have hzs : zs ≠ [] := by
    rintro rfl
    cases hraw
    exact hne rfl
  rw [flattenDNSResolverForwardZones_struct zs hzs]
  congr 1
  apply List.map_congr_left
  intro z hz
  rw [filter_nonempty_self z.2 (hns z hz)]

/-- C2 (amended), on the zone "example.com" with the nameservers "1.1.1.1:53" and
"8.8.8.8:53". -/
theorem flatten_expand_forward_zones_witness :
    ∃ zones,
      expandDNSResolverForwardZones
          (some [rawForwardZone ("example.com", ["1.1.1.1:53", "8.8.8.8:53"])]) = .ok zones ∧
        flattenDNSResolverForwardZones zones =
          some ([("example.com", ["1.1.1.1:53", "8.8.8.8:53"])].map flatForwardZone) :=
  flatten_expand_forward_zones [rawForwardZone ("example.com", ["1.1.1.1:53", "8.8.8.8:53"])]
    [("example.com", ["1.1.1.1:53", "8.8.8.8:53"])] (by simp)
    (List.Forall₂.cons ⟨_, rfl, rfl, rfl⟩ List.Forall₂.nil) (by decide)

/-! ### DNS resolver round trip -/

theorem mapM_writeValue_map {α : Type} (e : Schema) (f g : α → GoValue)
    (h : ∀ z, writeValue e (f z) = some (g z)) : ∀ zs : List α,
    (zs.map f).mapM (fun x => writeValue e x) = some (zs.map g)
  | [] => rfl
  | z :: zs => by
    rw [List.map_cons, List.mapM_cons, h, mapM_writeValue_map e f g h zs]
    rfl

theorem writeValue_TypeList_slice (e : Schema) (xs : List GoValue) :
    writeValue (.TypeList e) (.slice xs) = (xs.mapM (fun x => writeValue e x)).map GoValue.slice := by
  simp only [writeValue, GoValue.sliceElems]

theorem writeValue_TypeList_strings (e : Schema) (xs : List String) :
    writeValue (.TypeList e) (.strings xs) =
      ((xs.map GoValue.string).mapM (fun x => writeValue e x)).map GoValue.slice := by
  simp only [writeValue, GoValue.sliceElems]

theorem writeValue_nameservers_strings (ns : List String) :
    writeValue (.TypeList .TypeString) (.strings ns) = some (.slice (ns.map GoValue.string)) := by
  rw [writeValue_TypeList_strings,
    mapM_writeValue_map .TypeString GoValue.string GoValue.string (fun _ => rfl)]
  rfl

theorem writeValue_nameservers_slice (ns : List String) :
    writeValue (.TypeList .TypeString) (.slice (ns.map GoValue.string)) =
      some (.slice (ns.map GoValue.string)) := by
  rw [writeValue_TypeList_slice,
    mapM_writeValue_map .TypeString GoValue.string GoValue.string (fun _ => rfl)]
  rfl

theorem writeValue_Resource_map (fs : List (String × Schema)) (kv : List (String × GoValue)) :
    writeValue (.Resource fs) (.map kv) =
      if kv.all (fun p => (fs.map Prod.fst).contains p.1) then (writeFields fs kv).map GoValue.map
      else none := by
  simp only [writeValue]

theorem writeValue_TypeString_string (s : String) :
    writeValue .TypeString (.string s) = some (.string s) := rfl

theorem writeValue_flatForwardZone (z : ForwardZoneConfig) :
    writeValue (.Resource [("name", .TypeString), ("nameservers", .TypeList .TypeString)])
      (flatForwardZone z) = some (rawForwardZone z) := by
  rw [flatForwardZone, writeValue_Resource_map]
  simp [writeFields, List.lookup, writeValue_nameservers_strings, writeValue_TypeString_string,
    rawForwardZone]

theorem writeValue_rawForwardZone (z : ForwardZoneConfig) :
    writeValue (.Resource [("name", .TypeString), ("nameservers", .TypeList .TypeString)])
      (rawForwardZone z) = some (rawForwardZone z) := by
  rw [rawForwardZone, writeValue_Resource_map]
  simp [writeFields, List.lookup, writeValue_nameservers_slice, writeValue_TypeString_string]

theorem writeValue_forward_zones_flat (zs : List ForwardZoneConfig) :
    writeValue (.TypeList (.Resource [("name", .TypeString), ("nameservers", .TypeList .TypeString)]))
      (.slice (zs.map flatForwardZone)) = some (.slice (zs.map rawForwardZone)) := by
  rw [writeValue_TypeList_slice, mapM_writeValue_map _ _ _ writeValue_flatForwardZone]
  rfl

theorem writeValue_forward_zones_raw (zs : List ForwardZoneConfig) :
    writeValue (.TypeList (.Resource [("name", .TypeString), ("nameservers", .TypeList .TypeString)]))
      (.slice (zs.map rawForwardZone)) = some (.slice (zs.map rawForwardZone)) := by
  rw [writeValue_TypeList_slice, mapM_writeValue_map _ _ _ writeValue_rawForwardZone]
  rfl

theorem ResourceData.Get_string_of (d : ResourceData) (key : String)
    (h : d.schema.lookup key = some .TypeString) : d.Get key = .string (d.Get key).stringOf := by
  obtain ⟨s, hs⟩ := ResourceData.Get_TypeString d key h
  rw [hs]
  rfl

theorem ResourceData.Get_int_of (d : ResourceData) (key : String)
    (h : d.schema.lookup key = some .TypeInt) : d.Get key = .int (d.Get key).intOf := by
  obtain ⟨s, hs⟩ := ResourceData.Get_TypeInt d key h
  rw [hs]
  rfl

theorem getNetDNSResolverConfig_ok (id : String) (attrs : List (String × GoValue))
    (zs : List ForwardZoneConfig) (config : DNSResolver)
    (hfz : (⟨resourceBigipNetDnsResolverSchema, id, attrs⟩ : ResourceData).Get "forward_zones" =
      .slice (zs.map rawForwardZone))
    (hne : zs ≠ []) :
    getNetDNSResolverConfig ⟨resourceBigipNetDnsResolverSchema, id, attrs⟩ config =
      .ok { config with
        Description := ((⟨resourceBigipNetDnsResolverSchema, id, attrs⟩ : ResourceData).Get "description").stringOf
        AnswerDefaultZones := ((⟨resourceBigipNetDnsResolverSchema, id, attrs⟩ : ResourceData).Get "answer_default_zones").stringOf
        CacheSize := ((⟨resourceBigipNetDnsResolverSchema, id, attrs⟩ : ResourceData).Get "cache_size").intOf
        RandomizeQueryNameCase := ((⟨resourceBigipNetDnsResolverSchema, id, attrs⟩ : ResourceData).Get "randomize_query_name_case").stringOf
        RouteDomain := ((⟨resourceBigipNetDnsResolverSchema, id, attrs⟩ : ResourceData).Get "route_domain").stringOf
        Type_ := ((⟨resourceBigipNetDnsResolverSchema, id, attrs⟩ : ResourceData).Get "type").stringOf
        UseIpv4 := ((⟨resourceBigipNetDnsResolverSchema, id, attrs⟩ : ResourceData).Get "use_ipv4").stringOf
        UseIpv6 := ((⟨resourceBigipNetDnsResolverSchema, id, attrs⟩ : ResourceData).Get "use_ipv6").stringOf
        UseTcp := ((⟨resourceBigipNetDnsResolverSchema, id, attrs⟩ : ResourceData).Get "use_tcp").stringOf
        UseUdp := ((⟨resourceBigipNetDnsResolverSchema, id, attrs⟩ : ResourceData).Get "use_udp").stringOf
        ForwardZones := some (zs.map structForwardZone) } := by
  generalize hd : (⟨resourceBigipNetDnsResolverSchema, id, attrs⟩ : ResourceData) = d at hfz ⊢
  have hsch : d.schema = resourceBigipNetDnsResolverSchema := by rw [← hd]
  have h1 := ResourceData.Get_string_of d "description" (by rw [hsch]; rfl)
  have h2 := ResourceData.Get_string_of d "answer_default_zones" (by rw [hsch]; rfl)
  have h3 := ResourceData.Get_int_of d "cache_size" (by rw [hsch]; rfl)
  have h4 := ResourceData.Get_string_of d "randomize_query_name_case" (by rw [hsch]; rfl)
  have h5 := ResourceData.Get_string_of d "route_domain" (by rw [hsch]; rfl)
  have h6 := ResourceData.Get_string_of d "type" (by rw [hsch]; rfl)
  have h7 := ResourceData.Get_string_of d "use_ipv4" (by rw [hsch]; rfl)
  have h8 := ResourceData.Get_string_of d "use_ipv6" (by rw [hsch]; rfl)
  have h9 := ResourceData.Get_string_of d "use_tcp" (by rw [hsch]; rfl)
  have h10 := ResourceData.Get_string_of d "use_udp" (by rw [hsch]; rfl)
  have hok : d.GetOk "forward_zones" = (.slice (zs.map rawForwardZone), true) := by
    have hl : d.schema.lookup "forward_zones" = some (.TypeList (.Resource
        [("name", .TypeString), ("nameservers", .TypeList .TypeString)])) := by rw [hsch]; rfl
    simp only [ResourceData.GetOk, hl, hfz, zeroValue]
    cases zs with
    | nil => exact absurd rfl hne
    | cons z zs => simp [GoValue.beq, GoValue.beqList]
  have hraw : List.Forall₂ holdsForwardZone (zs.map rawForwardZone) zs := by
    clear hfz hok hne
    induction zs with
    | nil => exact List.Forall₂.nil
    | cons z zs ih => exact List.Forall₂.cons ⟨_, rfl, rfl, rfl⟩ ih
  have hexp := expandDNSResolverForwardZones_holds (zs.map rawForwardZone) zs
    (by simpa using hne) hraw
  unfold getNetDNSResolverConfig
  rw [h1, h2, h3, h4, h5, h6, h7, h8, h9, h10]
  simp only [GoValue.assertString, GoValue.assertInt, bind, Except.bind, hok, GoValue.asSlice, hexp,
    if_true, pure, Except.pure, GoValue.stringOf, GoValue.intOf]

theorem ResourceData.Set_ok (sch : List (String × Schema)) (id : String)
    (attrs : List (String × GoValue)) (key : String) (value w : GoValue) (t : Schema)
    (hs : sch.lookup key = some t) (hw : writeValue t value = some w) :
    ((⟨sch, id, attrs⟩ : ResourceData).Set key value).1 = ⟨sch, id, (key, w) :: attrs⟩ := by
  simp only [ResourceData.Set, hs, hw]

theorem ResourceData.Set_string (sch : List (String × Schema)) (id : String)
    (attrs : List (String × GoValue)) (key : String) (s : String)
    (hs : sch.lookup key = some .TypeString) :
    ((⟨sch, id, attrs⟩ : ResourceData).Set key (.string s)).1 = ⟨sch, id, (key, .string s) :: attrs⟩ :=
  ResourceData.Set_ok sch id attrs key _ _ .TypeString hs rfl

theorem ResourceData.Set_int (sch : List (String × Schema)) (id : String)
    (attrs : List (String × GoValue)) (key : String) (n : Int)
    (hs : sch.lookup key = some .TypeInt) :
    ((⟨sch, id, attrs⟩ : ResourceData).Set key (.int n)).1 = ⟨sch, id, (key, .int n) :: attrs⟩ :=
  ResourceData.Set_ok sch id attrs key _ _ .TypeInt hs rfl

theorem resourceBigipNetDnsResolverRead_found {σ : Type} (caseTable : Char → Char)
    (client : DNSResolverClient σ) (dev : σ) (id : String) (attrs : List (String × GoValue))
    (resolver : DNSResolver) (zs : List ForwardZoneConfig)
    (hget : client.GetDNSResolver dev id = (some resolver, none))
    (hflat : flattenDNSResolverForwardZones resolver.ForwardZones = some (zs.map flatForwardZone)) :
    resourceBigipNetDnsResolverRead caseTable client dev
        ⟨resourceBigipNetDnsResolverSchema, id, attrs⟩ =
      (⟨resourceBigipNetDnsResolverSchema, id,
          ("forward_zones", .slice (zs.map rawForwardZone)) ::
          ("use_udp", .string resolver.UseUdp) ::
          ("use_tcp", .string resolver.UseTcp) ::
          ("use_ipv6", .string resolver.UseIpv6) ::
          ("use_ipv4", .string resolver.UseIpv4) ::
          ("type", .string resolver.Type_) ::
          ("route_domain", .string resolver.RouteDomain) ::
          ("randomize_query_name_case", .string resolver.RandomizeQueryNameCase) ::
          ("cache_size", .int resolver.CacheSize) ::
          ("answer_default_zones", .string resolver.AnswerDefaultZones) ::
          ("description", .string resolver.Description) ::
          ("name", .string (if resolver.FullPath ≠ "" then resolver.FullPath else id)) :: attrs⟩,
        []) := by
  have hname : ∀ s : String,
      ((⟨resourceBigipNetDnsResolverSchema, id, attrs⟩ : ResourceData).Set "name" (.string s)).1 =
        ⟨resourceBigipNetDnsResolverSchema, id, ("name", .string s) :: attrs⟩ :=
    fun s => ResourceData.Set_ok resourceBigipNetDnsResolverSchema _ _ "name" _ _ .TypeString rfl rfl
  simp only [resourceBigipNetDnsResolverRead, ResourceData.Id, hget, hflat, GoValue.ofSlice]
  have h0 : (if resolver.FullPath ≠ "" then
        ((⟨resourceBigipNetDnsResolverSchema, id, attrs⟩ : ResourceData).Set "name"
          (.string resolver.FullPath)).1
      else ((⟨resourceBigipNetDnsResolverSchema, id, attrs⟩ : ResourceData).Set "name"
          (.string id)).1) =
      ⟨resourceBigipNetDnsResolverSchema, id,
        ("name", .string (if resolver.FullPath ≠ "" then resolver.FullPath else id)) :: attrs⟩ := by
    split <;> exact hname _
  rw [h0]
  rw [ResourceData.Set_string resourceBigipNetDnsResolverSchema _ _ "description" _ rfl]
  rw [ResourceData.Set_string resourceBigipNetDnsResolverSchema _ _ "answer_default_zones" _ rfl]
  rw [ResourceData.Set_int resourceBigipNetDnsResolverSchema _ _ "cache_size" _ rfl]
  rw [ResourceData.Set_string resourceBigipNetDnsResolverSchema _ _ "randomize_query_name_case" _ rfl]
  rw [ResourceData.Set_string resourceBigipNetDnsResolverSchema _ _ "route_domain" _ rfl]
  rw [ResourceData.Set_string resourceBigipNetDnsResolverSchema _ _ "type" _ rfl]
  rw [ResourceData.Set_string resourceBigipNetDnsResolverSchema _ _ "use_ipv4" _ rfl]
  rw [ResourceData.Set_string resourceBigipNetDnsResolverSchema _ _ "use_ipv6" _ rfl]
  rw [ResourceData.Set_string resourceBigipNetDnsResolverSchema _ _ "use_tcp" _ rfl]
  rw [ResourceData.Set_string resourceBigipNetDnsResolverSchema _ _ "use_udp" _ rfl]
  rw [ResourceData.Set_ok resourceBigipNetDnsResolverSchema _ _ "forward_zones" _ _ _ rfl (writeValue_forward_zones_flat zs)]

theorem ResourceData.Get_of_lookup (sch : List (String × Schema)) (id : String)
    (attrs : List (String × GoValue)) (key : String) (t : Schema) (w : GoValue)
    (hs : sch.lookup key = some t) (hl : attrs.lookup key = some w)
    (hw : writeValue t w = some w) (hr : readValue t w = w) :
    (⟨sch, id, attrs⟩ : ResourceData).Get key = w := by
  simp only [ResourceData.Get, hs, hl, hw, hr]

theorem flattenDNSResolverForwardZones_config (zs : List ForwardZoneConfig) (hne : zs ≠ [])
    (hns : ∀ z ∈ zs, "" ∉ z.2) :
    flattenDNSResolverForwardZones (some (zs.map structForwardZone)) =
      some (zs.map flatForwardZone) := by
  rw [flattenDNSResolverForwardZones_struct zs hne]
  congr 1
  apply List.map_congr_left
  intro z hz
  rw [filter_nonempty_self z.2 (hns z hz)]

theorem readValue_TypeList_slice (e : Schema) (xs : List GoValue) :
    readValue (.TypeList e) (.slice xs) =
      .slice (xs.map (fun x => if GoValue.beq x (zeroValue e) then GoValue.nil else readValue e x)) := by
  simp only [readValue]

theorem readValue_Resource_map (fs : List (String × Schema)) (kv : List (String × GoValue)) :
    readValue (.Resource fs) (.map kv) = .map (readFields fs kv) := by
  simp only [readValue]

theorem readValue_nameservers (ns : List String) :
    readValue (.TypeList .TypeString) (.slice (ns.map GoValue.string)) =
      .slice (ns.map readNameserver) := by
  rw [readValue_TypeList_slice, List.map_map]
  congr 1
  apply List.map_congr_left
  intro n _
  by_cases hn : n = ""
  · subst hn
    rfl
  · have hb : GoValue.beq (.string n) (zeroValue .TypeString) = false := by
      simpa [GoValue.beq, zeroValue] using hn
    simp only [Function.comp, hb, readNameserver, if_neg hn]
    rfl

theorem readValue_rawForwardZone (z : ForwardZoneConfig) :
    (if GoValue.beq (rawForwardZone z)
        (zeroValue (.Resource [("name", .TypeString), ("nameservers", .TypeList .TypeString)])) then
      GoValue.nil
    else readValue (.Resource [("name", .TypeString), ("nameservers", .TypeList .TypeString)])
      (rawForwardZone z)) = readForwardZone z := by
  have hz : zeroValue (.Resource [("name", .TypeString), ("nameservers", .TypeList .TypeString)]) =
      rawForwardZone ("", []) := rfl
  have hiff : GoValue.beq (rawForwardZone z) (rawForwardZone ("", [])) = true ↔
      (z.1 = "" ∧ z.2 = []) := by
    rw [GoValue.beq_iff]
    obtain ⟨n, ns⟩ := z
    simp [rawForwardZone]
  rw [hz]
  by_cases h : z.1 = "" ∧ z.2 = []
  · rw [if_pos (hiff.mpr h), readForwardZone, if_pos h]
  · have hb : ¬ (GoValue.beq (rawForwardZone z) (rawForwardZone ("", [])) = true) :=
      fun hb => h (hiff.mp hb)
    rw [if_neg hb, readForwardZone, if_neg h, rawForwardZone, readValue_Resource_map]
    have hns := readValue_nameservers z.2
    have hne : ("nameservers" == "name") = false := by decide
    have hstr : readValue .TypeString (.string z.1) = .string z.1 := rfl
    simp only [readFields, List.lookup, beq_self_eq_true, hne, hns, hstr]

theorem readValue_forward_zones (zs : List ForwardZoneConfig) :
    readValue (.TypeList (.Resource [("name", .TypeString), ("nameservers", .TypeList .TypeString)]))
      (.slice (zs.map rawForwardZone)) = .slice (zs.map readForwardZone) := by
  rw [readValue_TypeList_slice, List.map_map]
  congr 1
  apply List.map_congr_left
  intro z _
  exact readValue_rawForwardZone z

theorem readNameserver_eq (ns : List String) (h : "" ∉ ns) :
    ns.map readNameserver = ns.map GoValue.string := by
  apply List.map_congr_left
  intro n hn
  have hne : n ≠ "" := by
    rintro rfl
    exact h hn
  simp only [readNameserver, if_neg hne]

theorem readForwardZone_eq (z : ForwardZoneConfig) (hnz : ¬ (z.1 = "" ∧ z.2 = []))
    (hns : "" ∉ z.2) : readForwardZone z = rawForwardZone z := by
  simp only [readForwardZone, if_neg hnz, readNameserver_eq z.2 hns, rawForwardZone]

theorem readForwardZones_eq (zs : List ForwardZoneConfig)
    (hnz : ∀ z ∈ zs, ¬ (z.1 = "" ∧ z.2 = [])) (hns : ∀ z ∈ zs, "" ∉ z.2) :
    zs.map readForwardZone = zs.map rawForwardZone :=
  List.map_congr_left (fun z hz => readForwardZone_eq z (hnz z hz) (hns z hz))

theorem resourceBigipNetDnsResolverRead_round_trip {σ : Type} (caseTable : Char → Char)
    (client : DNSResolverClient σ) (dev : σ) (id id' : String) (attrs : List (String × GoValue))
    (zs : List ForwardZoneConfig) (name : String)
    (hfz : (⟨resourceBigipNetDnsResolverSchema, id, attrs⟩ : ResourceData).Get "forward_zones" =
      .slice (zs.map rawForwardZone))
    (hne : zs ≠ []) (hns : ∀ z ∈ zs, "" ∉ z.2) (hnz : ∀ z ∈ zs, ¬ (z.1 = "" ∧ z.2 = []))
    (config : DNSResolver)
    (hconfig : getNetDNSResolverConfig ⟨resourceBigipNetDnsResolverSchema, id, attrs⟩ { Name := name } =
      .ok config)
    (hget : client.GetDNSResolver dev id' = (some config, none)) :
    ∃ r, resourceBigipNetDnsResolverRead caseTable client dev
        ⟨resourceBigipNetDnsResolverSchema, id', attrs⟩ = (r, []) ∧
      ∀ key ∈ roundTripAttributes,
        r.Get key = (⟨resourceBigipNetDnsResolverSchema, id, attrs⟩ : ResourceData).Get key := by
  rw [getNetDNSResolverConfig_ok id attrs zs _ hfz hne] at hconfig
  have hconfig' := (Except.ok.inj hconfig).symm
  have hflat : flattenDNSResolverForwardZones config.ForwardZones = some (zs.map flatForwardZone) := by
    rw [hconfig']
    exact flattenDNSResolverForwardZones_config zs hne hns
  have hread := resourceBigipNetDnsResolverRead_found caseTable client dev id' attrs config zs
    hget hflat
  refine ⟨_, hread, ?_⟩
  intro key hkey
  simp only [roundTripAttributes, List.mem_cons, List.mem_singleton, List.not_mem_nil,
    or_false] at hkey
  rcases hkey with rfl | rfl | rfl | rfl | rfl | rfl | rfl | rfl | rfl | rfl | rfl
  · rw [ResourceData.Get_string_of ⟨resourceBigipNetDnsResolverSchema, id, attrs⟩ "description" rfl]
    exact ResourceData.Get_of_lookup _ _ _ _ .TypeString _ rfl (by rw [hconfig']; rfl) rfl rfl
  · rw [ResourceData.Get_string_of ⟨resourceBigipNetDnsResolverSchema, id, attrs⟩ "answer_default_zones" rfl]
    exact ResourceData.Get_of_lookup _ _ _ _ .TypeString _ rfl (by rw [hconfig']; rfl) rfl rfl
  · rw [ResourceData.Get_int_of ⟨resourceBigipNetDnsResolverSchema, id, attrs⟩ "cache_size" rfl]
    exact ResourceData.Get_of_lookup _ _ _ _ .TypeInt _ rfl (by rw [hconfig']; rfl) rfl rfl
  · rw [ResourceData.Get_string_of ⟨resourceBigipNetDnsResolverSchema, id, attrs⟩ "randomize_query_name_case" rfl]
    exact ResourceData.Get_of_lookup _ _ _ _ .TypeString _ rfl (by rw [hconfig']; rfl) rfl rfl
  · rw [ResourceData.Get_string_of ⟨resourceBigipNetDnsResolverSchema, id, attrs⟩ "route_domain" rfl]
    exact ResourceData.Get_of_lookup _ _ _ _ .TypeString _ rfl (by rw [hconfig']; rfl) rfl rfl
  · rw [ResourceData.Get_string_of ⟨resourceBigipNetDnsResolverSchema, id, attrs⟩ "type" rfl]
    exact ResourceData.Get_of_lookup _ _ _ _ .TypeString _ rfl (by rw [hconfig']; rfl) rfl rfl
  · rw [ResourceData.Get_string_of ⟨resourceBigipNetDnsResolverSchema, id, attrs⟩ "use_ipv4" rfl]
    exact ResourceData.Get_of_lookup _ _ _ _ .TypeString _ rfl (by rw [hconfig']; rfl) rfl rfl
  · rw [ResourceData.Get_string_of ⟨resourceBigipNetDnsResolverSchema, id, attrs⟩ "use_ipv6" rfl]
    exact ResourceData.Get_of_lookup _ _ _ _ .TypeString _ rfl (by rw [hconfig']; rfl) rfl rfl
  · rw [ResourceData.Get_string_of ⟨resourceBigipNetDnsResolverSchema, id, attrs⟩ "use_tcp" rfl]
    exact ResourceData.Get_of_lookup _ _ _ _ .TypeString _ rfl (by rw [hconfig']; rfl) rfl rfl
  · rw [ResourceData.Get_string_of ⟨resourceBigipNetDnsResolverSchema, id, attrs⟩ "use_udp" rfl]
    exact ResourceData.Get_of_lookup _ _ _ _ .TypeString _ rfl (by rw [hconfig']; rfl) rfl rfl
  · rw [hfz]
    exact ResourceData.Get_of_lookup _ _ _ _ _ _ rfl rfl (writeValue_forward_zones_raw zs)
      (by rw [readValue_forward_zones, readForwardZones_eq zs hnz hns])

/-- C1 as stated fails: the attribute set holds the forward zone "example.com" with the
nameserver "1.1.1.1:53" and a second zone with an empty name and no nameservers, which
`d.Get` hands over as nil and `expandDNSResolverForwardZones` skips. On the device that
returns the resolver last created, Create returns without diagnostics and the state
then holds one zone where two are configured. -/
theorem resourceBigipNetDnsResolverCreate_drops_zero_zone :
    ResourceData.Get
        ⟨resourceBigipNetDnsResolverSchema, "",
          [("name", .string "/Common/r1"),
           ("forward_zones",
             .slice [rawForwardZone ("example.com", ["1.1.1.1:53"]), rawForwardZone ("", [])])]⟩
        "forward_zones" =
      .slice [rawForwardZone ("example.com", ["1.1.1.1:53"]), .nil] ∧
    ∃ dev r,
      resourceBigipNetDnsResolverCreate id recordingDNSResolverClient none
          ⟨resourceBigipNetDnsResolverSchema, "",
            [("name", .string "/Common/r1"),
             ("forward_zones",
               .slice [rawForwardZone ("example.com", ["1.1.1.1:53"]), rawForwardZone ("", [])])]⟩ =
        .ok (dev, r, []) ∧
      r.Get "forward_zones" = .slice [rawForwardZone ("example.com", ["1.1.1.1:53"])] ∧
      r.Get "forward_zones" ≠
        ResourceData.Get
          ⟨resourceBigipNetDnsResolverSchema, "",
            [("name", .string "/Common/r1"),
             ("forward_zones",
               .slice [rawForwardZone ("example.com", ["1.1.1.1:53"]), rawForwardZone ("", [])])]⟩
          "forward_zones" :=
  ⟨by decide, _, _, rfl, by decide, by decide⟩

/-- C1 (amended): with a client whose `GetDNSResolver` returns the resolver last passed
to `CreateDNSResolver` / `ModifyDNSResolver`, for every attribute set of the resolver
schema whose configured forward zones `zs` are a non-empty list in which no zone has
an empty name together with no nameservers and no nameserver name is empty,
`resourceBigipNetDnsResolverCreate` and `resourceBigipNetDnsResolverUpdate` return
without diagnostics and afterwards each of description, answer_default_zones,
cache_size, randomize_query_name_case, route_domain, type, use_ipv4, use_ipv6, use_tcp,
use_udp and forward_zones reads as it was configured. -/
theorem resourceBigipNetDnsResolver_round_trip {σ : Type} (caseTable : Char → Char)
    (client : DNSResolverClient σ) (dev : σ) (id : String) (attrs : List (String × GoValue))
    (zs : List ForwardZoneConfig)
    (hcreate : ∀ dev config, (client.CreateDNSResolver dev config).2 = none ∧
      ∀ name, client.GetDNSResolver (client.CreateDNSResolver dev config).1 name = (some config, none))
    (hmodify : ∀ dev name config, (client.ModifyDNSResolver dev name config).2 = none ∧
      ∀ name', client.GetDNSResolver (client.ModifyDNSResolver dev name config).1 name' =
        (some config, none))
    (hfz : (⟨resourceBigipNetDnsResolverSchema, id, attrs⟩ : ResourceData).Get "forward_zones" =
      .slice (zs.map readForwardZone))
    (hne : zs ≠ []) (hnz : ∀ z ∈ zs, ¬ (z.1 = "" ∧ z.2 = [])) (hns : ∀ z ∈ zs, "" ∉ z.2) :
    (∃ dev' r,
      resourceBigipNetDnsResolverCreate caseTable client dev
          ⟨resourceBigipNetDnsResolverSchema, id, attrs⟩ = .ok (dev', r, []) ∧
        ∀ key ∈ roundTripAttributes,
          r.Get key = (⟨resourceBigipNetDnsResolverSchema, id, attrs⟩ : ResourceData).Get key) ∧
    (∃ dev' r,
      resourceBigipNetDnsResolverUpdate caseTable client dev
          ⟨resourceBigipNetDnsResolverSchema, id, attrs⟩ = .ok (dev', r, []) ∧
        ∀ key ∈ roundTripAttributes,
          r.Get key = (⟨resourceBigipNetDnsResolverSchema, id, attrs⟩ : ResourceData).Get key) := by
  rw [readForwardZones_eq zs hnz hns] at hfz
  constructor
  · obtain ⟨nm, hn⟩ := ResourceData.Get_TypeString ⟨resourceBigipNetDnsResolverSchema, id, attrs⟩
      "name" rfl
    obtain ⟨cfg, hcfg⟩ : ∃ cfg, getNetDNSResolverConfig
        ⟨resourceBigipNetDnsResolverSchema, id, attrs⟩ { Name := nm } = .ok cfg :=
      ⟨_, getNetDNSResolverConfig_ok id attrs zs { Name := nm } hfz hne⟩
    have hc := hcreate dev cfg
    cases hdev : client.CreateDNSResolver dev cfg with
    | mk dev' e =>
      rw [hdev] at hc
      obtain ⟨he, hg⟩ := hc
      simp only at he hg
      subst he
      obtain ⟨r, hread, hkeys⟩ := resourceBigipNetDnsResolverRead_round_trip caseTable client dev'
        id nm attrs zs nm hfz hne hns hnz cfg hcfg (hg nm)
      refine ⟨dev', r, ?_, hkeys⟩
      unfold resourceBigipNetDnsResolverCreate
      rw [hn]
      simp only [GoValue.assertString, bind, Except.bind, hcfg, hdev, ResourceData.SetId, hread]
      rfl
  · obtain ⟨cfg, hcfg⟩ : ∃ cfg, getNetDNSResolverConfig
        ⟨resourceBigipNetDnsResolverSchema, id, attrs⟩ { Name := id } = .ok cfg :=
      ⟨_, getNetDNSResolverConfig_ok id attrs zs { Name := id } hfz hne⟩
    have hc := hmodify dev id cfg
    cases hdev : client.ModifyDNSResolver dev id cfg with
    | mk dev' e =>
      rw [hdev] at hc
      obtain ⟨he, hg⟩ := hc
      simp only at he hg
      subst he
      obtain ⟨r, hread, hkeys⟩ := resourceBigipNetDnsResolverRead_round_trip caseTable client dev'
        id id attrs zs id hfz hne hns hnz cfg hcfg (hg id)
      refine ⟨dev', r, ?_, hkeys⟩
      unfold resourceBigipNetDnsResolverUpdate
      simp only [ResourceData.Id, bind, Except.bind, hcfg, hdev, hread]
      rfl

/-- C1 (amended), on the device that returns the resolver last created or modified and
the configuration of the acceptance test: description "test-dns-resolver" and the zone
"example.com" with the nameservers "1.1.1.1:53" and "8.8.8.8:53". -/
theorem resourceBigipNetDnsResolver_round_trip_witness :
    (∃ dev' r,
      resourceBigipNetDnsResolverCreate id recordingDNSResolverClient none
          ⟨resourceBigipNetDnsResolverSchema, "/Common/test-dns-resolver",
            [("name", .string "/Common/test-dns-resolver"),
             ("description", .string "test-dns-resolver"),
             ("forward_zones",
               .slice [rawForwardZone ("example.com", ["1.1.1.1:53", "8.8.8.8:53"])])]⟩ =
        .ok (dev', r, []) ∧
        ∀ key ∈ roundTripAttributes,
          r.Get key = ResourceData.Get
            ⟨resourceBigipNetDnsResolverSchema, "/Common/test-dns-resolver",
              [("name", .string "/Common/test-dns-resolver"),
               ("description", .string "test-dns-resolver"),
               ("forward_zones",
                 .slice [rawForwardZone ("example.com", ["1.1.1.1:53", "8.8.8.8:53"])])]⟩ key) ∧
    (∃ dev' r,
      resourceBigipNetDnsResolverUpdate id recordingDNSResolverClient none
          ⟨resourceBigipNetDnsResolverSchema, "/Common/test-dns-resolver",
            [("name", .string "/Common/test-dns-resolver"),
             ("description", .string "test-dns-resolver"),
             ("forward_zones",
               .slice [rawForwardZone ("example.com", ["1.1.1.1:53", "8.8.8.8:53"])])]⟩ =
        .ok (dev', r, []) ∧
        ∀ key ∈ roundTripAttributes,
          r.Get key = ResourceData.Get
            ⟨resourceBigipNetDnsResolverSchema, "/Common/test-dns-resolver",
              [("name", .string "/Common/test-dns-resolver"),
               ("description", .string "test-dns-resolver"),
               ("forward_zones",
                 .slice [rawForwardZone ("example.com", ["1.1.1.1:53", "8.8.8.8:53"])])]⟩ key) :=
  resourceBigipNetDnsResolver_round_trip id recordingDNSResolverClient none
    "/Common/test-dns-resolver"
    [("name", .string "/Common/test-dns-resolver"),
     ("description", .string "test-dns-resolver"),
     ("forward_zones", .slice [rawForwardZone ("example.com", ["1.1.1.1:53", "8.8.8.8:53"])])]
    [("example.com", ["1.1.1.1:53", "8.8.8.8:53"])]
    (fun _ _ => ⟨rfl, fun _ => rfl⟩) (fun _ _ _ => ⟨rfl, fun _ => rfl⟩) (by decide) (by simp)
    (by decide) (by decide)

/-! ### Shape of the `forward_zones` attribute -/

theorem mapM_some_forall₂ {α β : Type} (f : α → Option β) : ∀ (xs : List α) (ys : List β),
    xs.mapM f = some ys → List.Forall₂ (fun x y => f x = some y) xs ys
  | [], ys, h => by
    simp only [List.mapM_nil, pure, Option.some.injEq] at h
    subst h
    exact List.Forall₂.nil
  | x :: xs, ys, h => by
    rw [List.mapM_cons] at h
    cases hx : f x with
    | none =>
      rw [hx] at h
      exact absurd h (by simp)
    | some y =>
      cases hxs : xs.mapM f with
      | none =>
        rw [hx, hxs] at h
        exact absurd h (by simp)
      | some ys' =>
        rw [hx, hxs] at h
        simp only [bind, Option.bind, pure, Option.some.injEq] at h
        subst h
        exact List.Forall₂.cons hx (mapM_some_forall₂ f xs ys' hxs)

theorem writeValue_TypeString_shape (v w : GoValue) (h : writeValue .TypeString v = some w) :
    ∃ s, w = .string s := by
  cases v <;> simp [writeValue] at h <;> exact ⟨_, h.symm⟩

theorem forall₂_strings_shape : ∀ (xs ys : List GoValue),
    List.Forall₂ (fun x y => writeValue .TypeString x = some y) xs ys →
    ∃ ns : List String, ys = ns.map GoValue.string
  | _, _, .nil => ⟨[], rfl⟩
  | _, _, .cons h hs => by
    obtain ⟨s, rfl⟩ := writeValue_TypeString_shape _ _ h
    obtain ⟨ns, rfl⟩ := forall₂_strings_shape _ _ hs
    exact ⟨s :: ns, rfl⟩

theorem writeValue_TypeList_shape (e : Schema) (v w : GoValue)
    (h : writeValue (.TypeList e) v = some w) :
    ∃ (xs ys : List GoValue), xs.mapM (fun x => writeValue e x) = some ys ∧ w = .slice ys := by
  have hu : writeValue (.TypeList e) v =
      match v.sliceElems with
      | some xs => (xs.mapM (fun x => writeValue e x)).map GoValue.slice
      | none => none := by
    simp only [writeValue]
  rw [hu] at h
  cases hv : v.sliceElems with
  | none =>
    rw [hv] at h
    exact absurd h (by simp)
  | some xs =>
    cases hm : xs.mapM (fun x => writeValue e x) with
    | none =>
      rw [hv] at h
      simp only [hm] at h
      exact absurd h (by simp)
    | some ys =>
      rw [hv] at h
      simp only [hm, Option.map_some', Option.some.injEq] at h
      exact ⟨xs, ys, hm, h.symm⟩

theorem writeValue_nameservers_shape (v w : GoValue)
    (h : writeValue (.TypeList .TypeString) v = some w) :
    ∃ ns : List String, w = .slice (ns.map GoValue.string) := by
  obtain ⟨xs, ys, hm, rfl⟩ := writeValue_TypeList_shape _ v w h
  obtain ⟨ns, rfl⟩ := forall₂_strings_shape xs ys (mapM_some_forall₂ _ xs ys hm)
  exact ⟨ns, rfl⟩

theorem writeFields_cons_shape (k : String) (t : Schema) (fs : List (String × Schema))
    (kv out : List (String × GoValue)) (h : writeFields ((k, t) :: fs) kv = some out) :
    ∃ w rest, out = (k, w) :: rest ∧ writeFields fs kv = some rest ∧
      (w = zeroValue t ∨ ∃ v, writeValue t v = some w) := by
  rw [writeFields] at h
  cases hl : kv.lookup k with
  | none =>
    rw [hl] at h
    cases hr : writeFields fs kv with
    | none =>
      simp only [hr] at h
      exact absurd h (by simp)
    | some rest =>
      simp only [hr, Option.some.injEq] at h
      exact ⟨_, rest, h.symm, rfl, Or.inl rfl⟩
  | some v =>
    rw [hl] at h
    cases hw : writeValue t v with
    | none =>
      simp only [hw] at h
      exact absurd h (by simp)
    | some w =>
      cases hr : writeFields fs kv with
      | none =>
        simp only [hw, hr] at h
        exact absurd h (by simp)
      | some rest =>
        simp only [hw, hr, Option.some.injEq] at h
        exact ⟨w, rest, h.symm, rfl, Or.inr ⟨v, hw⟩⟩

theorem writeValue_forward_zone_shape (v w : GoValue)
    (h : writeValue (.Resource [("name", .TypeString), ("nameservers", .TypeList .TypeString)]) v =
      some w) : ∃ z : ForwardZoneConfig, w = rawForwardZone z := by
  cases v with
  | map kv =>
    rw [writeValue_Resource_map] at h
    split at h
    · cases hf : writeFields [("name", .TypeString), ("nameservers", .TypeList .TypeString)] kv with
      | none =>
        rw [hf] at h
        exact absurd h (by simp)
      | some out =>
        rw [hf] at h
        simp only [Option.map_some', Option.some.injEq] at h
        subst h
        obtain ⟨w1, rest1, rfl, hf1, hw1⟩ := writeFields_cons_shape _ _ _ _ _ hf
        obtain ⟨w2, rest2, rfl, hf2, hw2⟩ := writeFields_cons_shape _ _ _ _ _ hf1
        simp only [writeFields, Option.some.injEq] at hf2
        subst hf2
        have h1 : ∃ s, w1 = .string s := by
          rcases hw1 with rfl | ⟨v1, hv1⟩
          · exact ⟨"", rfl⟩
          · exact writeValue_TypeString_shape v1 w1 hv1
        have h2 : ∃ ns : List String, w2 = .slice (ns.map GoValue.string) := by
          rcases hw2 with rfl | ⟨v2, hv2⟩
          · exact ⟨[], rfl⟩
          · exact writeValue_nameservers_shape v2 w2 hv2
        obtain ⟨s, rfl⟩ := h1
        obtain ⟨ns, rfl⟩ := h2
        exact ⟨(s, ns), rfl⟩
    · exact absurd h (by simp)
  | _ => simp [writeValue] at h

theorem forall₂_forward_zone_shape : ∀ (xs ys : List GoValue),
    List.Forall₂ (fun x y =>
      writeValue (.Resource [("name", .TypeString), ("nameservers", .TypeList .TypeString)]) x =
        some y) xs ys →
    ∃ zs : List ForwardZoneConfig, ys = zs.map rawForwardZone
  | _, _, .nil => ⟨[], rfl⟩
  | _, _, .cons h hs => by
    obtain ⟨z, rfl⟩ := writeValue_forward_zone_shape _ _ h
    obtain ⟨zs, rfl⟩ := forall₂_forward_zone_shape _ _ hs
    exact ⟨z :: zs, rfl⟩

/-- Every resource data of the resolver schema hands over, under `forward_zones`, what
`d.Get` makes of some list of configured zones. -/
theorem forward_zones_shape (id : String) (attrs : List (String × GoValue)) :
    ∃ zs : List ForwardZoneConfig,
      (⟨resourceBigipNetDnsResolverSchema, id, attrs⟩ : ResourceData).Get "forward_zones" =
        .slice (zs.map readForwardZone) := by
  have hl : resourceBigipNetDnsResolverSchema.lookup "forward_zones" = some (.TypeList (.Resource
      [("name", .TypeString), ("nameservers", .TypeList .TypeString)])) := rfl
  simp only [ResourceData.Get, hl]
  cases attrs.lookup "forward_zones" with
  | none => exact ⟨[], rfl⟩
  | some v =>
    cases hw : writeValue (.TypeList (.Resource
        [("name", .TypeString), ("nameservers", .TypeList .TypeString)])) v with
    | none =>
      simp only [hw]
      exact ⟨[], rfl⟩
    | some w =>
      simp only [hw]
      obtain ⟨xs, ys, hm, rfl⟩ := writeValue_TypeList_shape _ v w hw
      obtain ⟨zs, rfl⟩ := forall₂_forward_zone_shape xs ys (mapM_some_forall₂ _ xs ys hm)
      exact ⟨zs, readValue_forward_zones zs⟩

/-! ### `BooledString` codec -/

/-- C11: `BooledString.MarshalJSON` succeeds and yields the JSON string "true" for true
and "false" for false, and `UnmarshalJSON` applied to that output succeeds and sets the
receiver, whatever it held, to the marshalled value. -/
theorem BooledString_marshal_unmarshal (escape : Char → List Char) (b receiver : Bool) :
    BooledString.MarshalJSON escape b = (if b then "\"true\"" else "\"false\"", none) ∧
      BooledString.UnmarshalJSON receiver (BooledString.MarshalJSON escape b).1 = (b, none) := by
  cases b <;> cases receiver <;> exact ⟨rfl, rfl⟩

theorem isJSONNull_not_string (data : String) (h : isJSONNull data = true) :
    jsonStringValue data = none := by
  simp only [isJSONNull, beq_iff_eq] at h
  simp only [jsonStringValue, h]
  rfl

/-- C12 as stated fails: the input `null` is not a JSON string, yet `UnmarshalJSON` on a
receiver holding true returns no error and sets the receiver to false. -/
theorem BooledString_UnmarshalJSON_null :
    jsonStringValue "null" = none ∧ BooledString.UnmarshalJSON true "null" = (false, none) := by
  decide

/-- C12 (amended): for a JSON string input `UnmarshalJSON` returns no error and sets the
receiver to true exactly when the string is "true"; for the JSON `null` it returns no
error and sets the receiver to false; for every other input it returns an error and
leaves the receiver unchanged. -/
theorem BooledString_UnmarshalJSON_cases (b : Bool) (data : String) :
    (∀ s, jsonStringValue data = some s →
        BooledString.UnmarshalJSON b data = (decide (s = "true"), none)) ∧
      (isJSONNull data = true → BooledString.UnmarshalJSON b data = (false, none)) ∧
      (jsonStringValue data = none → isJSONNull data = false →
        ∃ e, BooledString.UnmarshalJSON b data = (b, some e)) := by
  refine ⟨?_, ?_, ?_⟩
  · intro s hs
    simp only [BooledString.UnmarshalJSON, jsonUnmarshalString, hs]
    by_cases h : s = "true" <;> simp [h]
  · intro hn
    simp only [BooledString.UnmarshalJSON, jsonUnmarshalString, isJSONNull_not_string data hn, hn,
      if_true]
    rfl
  · intro hs hn
    simp only [BooledString.UnmarshalJSON, jsonUnmarshalString, hs, hn]
    exact ⟨_, rfl⟩

/-- C12 (amended), on the JSON strings "true", "True" and "", on `null`, and on the bare
JSON boolean true. -/
theorem BooledString_UnmarshalJSON_cases_witness :
    BooledString.UnmarshalJSON false "\"true\"" = (decide ("true" = "true"), none) ∧
      BooledString.UnmarshalJSON true "\"True\"" = (decide ("True" = "true"), none) ∧
      BooledString.UnmarshalJSON true "\"\"" = (decide ("" = "true"), none) ∧
      BooledString.UnmarshalJSON true "null" = (false, none) ∧
      ∃ e, BooledString.UnmarshalJSON false "true" = (false, some e) :=
  ⟨(BooledString_UnmarshalJSON_cases false "\"true\"").1 "true" (by decide),
   (BooledString_UnmarshalJSON_cases true "\"True\"").1 "True" (by decide),
   (BooledString_UnmarshalJSON_cases true "\"\"").1 "" (by decide),
   (BooledString_UnmarshalJSON_cases true "null").2.1 (by decide),
   (BooledString_UnmarshalJSON_cases false "true").2.2 (by decide) (by decide)⟩

/-! ### ILX extension upload -/

theorem uploadFiles_recording : ∀ (dev : List OsFile) (files : List OsFile),
    (uploadFiles recordingUploadClient dev files).1 =
      dev ++ files.filter (fun f => f.Name == "index.js" || f.Name == "package.json")
  | dev, [] => by simp [uploadFiles]
  | dev, file :: rest => by
    rw [uploadFiles]
    by_cases h : (file.Name == "index.js" || file.Name == "package.json") = true
    · have ih := uploadFiles_recording (dev ++ [file]) rest
      simp only [h, if_true, recordingUploadClient, List.filter_cons] at ih ⊢
      cases hr : uploadFiles recordingUploadClient (dev ++ [file]) rest with
      | mk dev' res =>
        rw [recordingUploadClient] at hr
        rw [hr] at ih
        simp only at ih
        cases res <;> simp [hr, ih]
    · have ih := uploadFiles_recording dev rest
      simp only [h, List.filter_cons] at ih ⊢
      simpa using ih

/-- C13 (the code departs from the claim): in the directory "/tmp/ext" holding the files
index.js, package.json and README.md and the sub-directory node_modules, the files are
opened under the names "/tmp/ext/index.js", "/tmp/ext/package.json" and
"/tmp/ext/README.md", none of which equals "index.js" or "package.json", so
`UploadExtensionFiles` passes no file to `UploadFile`; only for the directory "." are
index.js and package.json uploaded. -/
theorem UploadExtensionFiles_uploads_nothing :
    readFilesFromDirectory
        (listingFS "/tmp/ext"
          [⟨"index.js", false⟩, ⟨"node_modules", true⟩, ⟨"package.json", false⟩, ⟨"README.md", false⟩])
        "/tmp/ext" =
      .ok [⟨"/tmp/ext/index.js"⟩, ⟨"/tmp/ext/package.json"⟩, ⟨"/tmp/ext/README.md"⟩] ∧
    UploadExtensionFiles "/var/ilx/workspaces" recordingUploadClient
        (listingFS "/tmp/ext"
          [⟨"index.js", false⟩, ⟨"node_modules", true⟩, ⟨"package.json", false⟩, ⟨"README.md", false⟩])
        [] ⟨none⟩ { Name := "ext1", Partition := "Common", WorkspaceName := "ws1" } "/tmp/ext" =
      ([], none) ∧
    UploadExtensionFiles "/var/ilx/workspaces" recordingUploadClient
        (listingFS "."
          [⟨"index.js", false⟩, ⟨"node_modules", true⟩, ⟨"package.json", false⟩, ⟨"README.md", false⟩])
        [] ⟨none⟩ { Name := "ext1", Partition := "Common", WorkspaceName := "ws1" } "." =
      ([⟨"index.js"⟩, ⟨"package.json"⟩], none) := by
  refine ⟨rfl, ?_, ?_⟩ <;> decide

/-! ### `flattenDNSResolverForwardZones` -/

theorem flattenNameServers_eq (nameServers : GoSlice DNSResolverNameserver) :
    flattenNameServers nameServers =
      (nameServers.elems.map (fun ns => ns.Name)).filter (fun n => n ≠ "") := by
  simp [flattenNameServers, List.filter_map, Function.comp_def]

theorem flattenDNSResolverForwardZones_eq (zones : GoSlice DNSResolverForwardZone) :
    flattenDNSResolverForwardZones zones = some (zones.elems.map flattenedZone) := by
  unfold flattenDNSResolverForwardZones
  split
  · next h =>
    cases zones with
    | none => rfl
    | some xs =>
      cases xs with
      | nil => rfl
      | cons x xs => simp [GoSlice.len] at h
  · congr 1
    apply List.map_congr_left
    intro z _
    simp only [flattenedZone, flattenNameServers_eq]

/-- C16: `flattenDNSResolverForwardZones` returns a non-nil list of the same length as
`zones`, whose i-th entry is the map of `zones[i]`: "name" is its `Name` and
"nameservers" the `Name` fields of its `NameServers` with the empty names removed, in
their order; for the nil and for the empty input it returns the empty non-nil list. -/
theorem flattenDNSResolverForwardZones_spec (zones : GoSlice DNSResolverForwardZone) :
    (∃ out, flattenDNSResolverForwardZones zones = some out ∧ out.length = zones.len ∧
        ∀ i : Nat, out[i]? = (zones.elems[i]?).map flattenedZone) ∧
      flattenDNSResolverForwardZones none = some [] ∧
      flattenDNSResolverForwardZones (some []) = some [] := by
  refine ⟨⟨_, flattenDNSResolverForwardZones_eq zones, ?_, ?_⟩, rfl, rfl⟩
  · cases zones <;> simp [GoSlice.len, GoSlice.elems]
  · intro i
    simp [List.getElem?_map]

/-! ### `getNetDNSResolverConfig` -/

theorem forall₂_holdsForwardZone_raw : ∀ zs : List ForwardZoneConfig,
    List.Forall₂ holdsForwardZone (zs.map rawForwardZone) zs
  | [] => List.Forall₂.nil
  | _ :: zs => List.Forall₂.cons ⟨_, rfl, rfl, rfl⟩ (forall₂_holdsForwardZone_raw zs)

theorem getNetDNSResolverConfig_of_expand (id : String) (attrs : List (String × GoValue))
    (raw : List GoValue) (zones : GoSlice DNSResolverForwardZone) (config : DNSResolver)
    (hfz : (⟨resourceBigipNetDnsResolverSchema, id, attrs⟩ : ResourceData).Get "forward_zones" =
      .slice raw)
    (hexp : expandDNSResolverForwardZones (some raw) = .ok zones) :
    getNetDNSResolverConfig ⟨resourceBigipNetDnsResolverSchema, id, attrs⟩ config =
      .ok { config with
        Description := ((⟨resourceBigipNetDnsResolverSchema, id, attrs⟩ : ResourceData).Get "description").stringOf
        AnswerDefaultZones := ((⟨resourceBigipNetDnsResolverSchema, id, attrs⟩ : ResourceData).Get "answer_default_zones").stringOf
        CacheSize := ((⟨resourceBigipNetDnsResolverSchema, id, attrs⟩ : ResourceData).Get "cache_size").intOf
        RandomizeQueryNameCase := ((⟨resourceBigipNetDnsResolverSchema, id, attrs⟩ : ResourceData).Get "randomize_query_name_case").stringOf
        RouteDomain := ((⟨resourceBigipNetDnsResolverSchema, id, attrs⟩ : ResourceData).Get "route_domain").stringOf
        Type_ := ((⟨resourceBigipNetDnsResolverSchema, id, attrs⟩ : ResourceData).Get "type").stringOf
        UseIpv4 := ((⟨resourceBigipNetDnsResolverSchema, id, attrs⟩ : ResourceData).Get "use_ipv4").stringOf
        UseIpv6 := ((⟨resourceBigipNetDnsResolverSchema, id, attrs⟩ : ResourceData).Get "use_ipv6").stringOf
        UseTcp := ((⟨resourceBigipNetDnsResolverSchema, id, attrs⟩ : ResourceData).Get "use_tcp").stringOf
        UseUdp := ((⟨resourceBigipNetDnsResolverSchema, id, attrs⟩ : ResourceData).Get "use_udp").stringOf
        ForwardZones := if raw = [] then config.ForwardZones else zones } := by
  generalize hd : (⟨resourceBigipNetDnsResolverSchema, id, attrs⟩ : ResourceData) = d at hfz ⊢
  have hsch : d.schema = resourceBigipNetDnsResolverSchema := by rw [← hd]
  have h1 := ResourceData.Get_string_of d "description" (by rw [hsch]; rfl)
  have h2 := ResourceData.Get_string_of d "answer_default_zones" (by rw [hsch]; rfl)
  have h3 := ResourceData.Get_int_of d "cache_size" (by rw [hsch]; rfl)
  have h4 := ResourceData.Get_string_of d "randomize_query_name_case" (by rw [hsch]; rfl)
  have h5 := ResourceData.Get_string_of d "route_domain" (by rw [hsch]; rfl)
  have h6 := ResourceData.Get_string_of d "type" (by rw [hsch]; rfl)
  have h7 := ResourceData.Get_string_of d "use_ipv4" (by rw [hsch]; rfl)
  have h8 := ResourceData.Get_string_of d "use_ipv6" (by rw [hsch]; rfl)
  have h9 := ResourceData.Get_string_of d "use_tcp" (by rw [hsch]; rfl)
  have h10 := ResourceData.Get_string_of d "use_udp" (by rw [hsch]; rfl)
  have hl : d.schema.lookup "forward_zones" = some (.TypeList (.Resource
      [("name", .TypeString), ("nameservers", .TypeList .TypeString)])) := by rw [hsch]; rfl
  cases raw with
  | nil =>
    have hok : d.GetOk "forward_zones" = (.slice [], false) := by
      simp only [ResourceData.GetOk, hl, hfz, zeroValue]
      rfl
    unfold getNetDNSResolverConfig
    rw [h1, h2, h3, h4, h5, h6, h7, h8, h9, h10]
    simp only [GoValue.assertString, GoValue.assertInt, bind, Except.bind, hok, pure, Except.pure,
      GoValue.stringOf, GoValue.intOf, if_true]
    rfl
  | cons x xs =>
    have hok : d.GetOk "forward_zones" = (.slice (x :: xs), true) := by
      simp only [ResourceData.GetOk, hl, hfz, zeroValue]
      simp [GoValue.beq, GoValue.beqList]
    unfold getNetDNSResolverConfig
    rw [h1, h2, h3, h4, h5, h6, h7, h8, h9, h10]
    simp only [GoValue.assertString, GoValue.assertInt, bind, Except.bind, hok, GoValue.asSlice, hexp,
      if_true, pure, Except.pure, GoValue.stringOf, GoValue.intOf]
    rfl

theorem listToStringSlice_read (ns : List String) (h : "" ∉ ns) :
    listToStringSlice (ns.map readNameserver) = .ok ns := by
  rw [readNameserver_eq ns h]
  exact listToStringSlice_strings ns

theorem expandForwardZone_read (z : ForwardZoneConfig) (h : "" ∉ z.2) :
    expandForwardZone (readForwardZone z) =
      .ok (if z.1 = "" ∧ z.2 = [] then none else some (structForwardZone z)) := by
  by_cases hz : z.1 = "" ∧ z.2 = []
  · simp only [readForwardZone, if_pos hz]
    rfl
  · simp only [if_neg hz]
    have hr : readForwardZone z = rawForwardZone z := readForwardZone_eq z hz h
    rw [hr]
    exact expandForwardZone_holds _ z ⟨_, rfl, rfl, rfl⟩

theorem expandForwardZoneItems_read : ∀ zs : List ForwardZoneConfig, (∀ z ∈ zs, "" ∉ z.2) →
    expandForwardZoneItems (zs.map readForwardZone) =
      .ok ((zs.filter (fun z => ¬ (z.1 = "" ∧ z.2 = []))).map structForwardZone)
  | [], _ => rfl
  | z :: zs, h => by
    have hz := expandForwardZone_read z (h z (List.mem_cons_self _ _))
    have ih := expandForwardZoneItems_read zs (fun y hy => h y (List.mem_cons_of_mem _ hy))
    simp only [List.map_cons, expandForwardZoneItems, hz, ih]
    by_cases hzero : z.1 = "" ∧ z.2 = []
    · simp [hzero, List.filter_cons]
    · have h2 : ¬ z.1 = "" ∨ ¬ z.2 = [] := not_and_or.mp hzero
      simp [hzero, List.filter_cons, h2]

theorem expandDNSResolverForwardZones_read (zs : List ForwardZoneConfig)
    (h : ∀ z ∈ zs, "" ∉ z.2) :
    ∃ zones, expandDNSResolverForwardZones (some (zs.map readForwardZone)) = .ok zones := by
  unfold expandDNSResolverForwardZones
  split
  · exact ⟨_, rfl⟩
  · simp only [GoSlice.elems, expandForwardZoneItems_read zs h]
    exact ⟨_, rfl⟩

/-- C17 (the code departs from the claim): on the attribute set with the forward zone
"example.com" and the single nameserver "", which `d.Get` hands over as a nil list
element, `getNetDNSResolverConfig` returns no config: the type assertion to `string`
in `listToStringSlice` panics, and `resourceBigipNetDnsResolverUpdate` ends in that
panic before `ModifyDNSResolver` is called. -/
theorem getNetDNSResolverConfig_panics_on_empty_nameserver :
    ResourceData.Get
        ⟨resourceBigipNetDnsResolverSchema, "/Common/r1",
          [("forward_zones", .slice [rawForwardZone ("example.com", [""])])]⟩ "forward_zones" =
      .slice [.map [("name", .string "example.com"), ("nameservers", .slice [.nil])]] ∧
    getNetDNSResolverConfig
        ⟨resourceBigipNetDnsResolverSchema, "/Common/r1",
          [("forward_zones", .slice [rawForwardZone ("example.com", [""])])]⟩
        { Name := "/Common/r1" } =
      .error "interface conversion: interface {} is nil, not string" ∧
    resourceBigipNetDnsResolverUpdate id recordingDNSResolverClient none
        ⟨resourceBigipNetDnsResolverSchema, "/Common/r1",
          [("forward_zones", .slice [rawForwardZone ("example.com", [""])])]⟩ =
      .error "interface conversion: interface {} is nil, not string" :=
  ⟨by decide, rfl, rfl⟩

/-- Away from nil nameserver elements `getNetDNSResolverConfig` overwrites only the
configurable fields: on every attribute set of the resolver schema whose configured
forward zones `zs` hold no empty nameserver name, and every input config, it returns
the config with `Name` and `FullPath` unchanged and the ten scalar fields equal to the
attributes; `ForwardZones` is the expanded `forward_zones` attribute when that list is
non-empty and is left unchanged when it is empty or unset, so that
`resourceBigipNetDnsResolverUpdate` with an empty `forward_zones` passes
`ModifyDNSResolver` a config whose `ForwardZones` is nil. -/
theorem getNetDNSResolverConfig_frame (caseTable : Char → Char) (id : String)
    (attrs : List (String × GoValue)) (config : DNSResolver) (zs : List ForwardZoneConfig)
    (hfz : (⟨resourceBigipNetDnsResolverSchema, id, attrs⟩ : ResourceData).Get "forward_zones" =
      .slice (zs.map readForwardZone))
    (hns : ∀ z ∈ zs, "" ∉ z.2) :
    ∃ out, getNetDNSResolverConfig ⟨resourceBigipNetDnsResolverSchema, id, attrs⟩ config = .ok out ∧
      out.Name = config.Name ∧ out.FullPath = config.FullPath ∧
      (⟨resourceBigipNetDnsResolverSchema, id, attrs⟩ : ResourceData).Get "description" =
        .string out.Description ∧
      (⟨resourceBigipNetDnsResolverSchema, id, attrs⟩ : ResourceData).Get "answer_default_zones" =
        .string out.AnswerDefaultZones ∧
      (⟨resourceBigipNetDnsResolverSchema, id, attrs⟩ : ResourceData).Get "cache_size" =
        .int out.CacheSize ∧
      (⟨resourceBigipNetDnsResolverSchema, id, attrs⟩ : ResourceData).Get "randomize_query_name_case" =
        .string out.RandomizeQueryNameCase ∧
      (⟨resourceBigipNetDnsResolverSchema, id, attrs⟩ : ResourceData).Get "route_domain" =
        .string out.RouteDomain ∧
      (⟨resourceBigipNetDnsResolverSchema, id, attrs⟩ : ResourceData).Get "type" =
        .string out.Type_ ∧
      (⟨resourceBigipNetDnsResolverSchema, id, attrs⟩ : ResourceData).Get "use_ipv4" =
        .string out.UseIpv4 ∧
      (⟨resourceBigipNetDnsResolverSchema, id, attrs⟩ : ResourceData).Get "use_ipv6" =
        .string out.UseIpv6 ∧
      (⟨resourceBigipNetDnsResolverSchema, id, attrs⟩ : ResourceData).Get "use_tcp" =
        .string out.UseTcp ∧
      (⟨resourceBigipNetDnsResolverSchema, id, attrs⟩ : ResourceData).Get "use_udp" =
        .string out.UseUdp ∧
      (∀ raw, (⟨resourceBigipNetDnsResolverSchema, id, attrs⟩ : ResourceData).Get "forward_zones" =
          .slice raw → raw ≠ [] →
        expandDNSResolverForwardZones (some raw) = .ok out.ForwardZones) ∧
      ((⟨resourceBigipNetDnsResolverSchema, id, attrs⟩ : ResourceData).Get "forward_zones" =
          .slice [] →
        out.ForwardZones = config.ForwardZones) ∧
      ((⟨resourceBigipNetDnsResolverSchema, id, attrs⟩ : ResourceData).Get "forward_zones" =
          .slice [] →
        ∃ sent : DNSResolver, sent.Name = id ∧ sent.ForwardZones = none ∧
          ∀ (σ : Type) (client : DNSResolverClient σ) (dev : σ),
            resourceBigipNetDnsResolverUpdate caseTable client dev
                ⟨resourceBigipNetDnsResolverSchema, id, attrs⟩ =
              .ok (match client.ModifyDNSResolver dev id sent with
                | (dev', some err) =>
                  (dev', ⟨resourceBigipNetDnsResolverSchema, id, attrs⟩,
                    errorDiagnostics ("error modifying DNS resolver " ++ id ++ ": " ++ err.msg))
                | (dev', none) =>
                  (dev', resourceBigipNetDnsResolverRead caseTable client dev'
                    ⟨resourceBigipNetDnsResolverSchema, id, attrs⟩))) := by
  obtain ⟨zones, hexp⟩ := expandDNSResolverForwardZones_read zs hns
  have hout := getNetDNSResolverConfig_of_expand id attrs _ zones config hfz hexp
  refine ⟨_, hout, rfl, rfl,
    ResourceData.Get_string_of _ "description" rfl,
    ResourceData.Get_string_of _ "answer_default_zones" rfl,
    ResourceData.Get_int_of _ "cache_size" rfl,
    ResourceData.Get_string_of _ "randomize_query_name_case" rfl,
    ResourceData.Get_string_of _ "route_domain" rfl,
    ResourceData.Get_string_of _ "type" rfl,
    ResourceData.Get_string_of _ "use_ipv4" rfl,
    ResourceData.Get_string_of _ "use_ipv6" rfl,
    ResourceData.Get_string_of _ "use_tcp" rfl,
    ResourceData.Get_string_of _ "use_udp" rfl, ?_, ?_, ?_⟩
  · intro raw hraw hne
    rw [hfz] at hraw
    have hr : zs.map readForwardZone = raw := GoValue.slice.inj hraw
    rw [hr] at hexp
    simp only [hr, if_neg hne]
    exact hexp
  · intro hraw
    rw [hfz] at hraw
    have hz : zs.map readForwardZone = [] := GoValue.slice.inj hraw
    simp only [if_pos hz]
  · intro hraw
    rw [hfz] at hraw
    have hz : zs.map readForwardZone = [] := GoValue.slice.inj hraw
    have hsent := getNetDNSResolverConfig_of_expand id attrs _ zones { Name := id } hfz hexp
    simp only [if_pos hz] at hsent
    obtain ⟨sent, hs, hname, hzones⟩ : ∃ sent : DNSResolver,
        getNetDNSResolverConfig ⟨resourceBigipNetDnsResolverSchema, id, attrs⟩ { Name := id } =
          .ok sent ∧ sent.Name = id ∧ sent.ForwardZones = none := ⟨_, hsent, rfl, rfl⟩
    refine ⟨sent, hname, hzones, ?_⟩
    intro σ client dev
    unfold resourceBigipNetDnsResolverUpdate
    simp only [ResourceData.Id, bind, Except.bind, hs]
    cases hm : client.ModifyDNSResolver dev id sent with
    | mk dev' e =>
      cases e <;> rfl

/-- The frame property on an attribute set without forward zones and a config that holds
one zone, and on an attribute set with the zone "example.com". -/
theorem getNetDNSResolverConfig_frame_witness :
    (∃ out,
      getNetDNSResolverConfig
          ⟨resourceBigipNetDnsResolverSchema, "/Common/r1", [("description", .string "d")]⟩
          { Name := "/Common/r1", ForwardZones := some [{ Name := "example.com" }] } = .ok out ∧
        out.ForwardZones = some [{ Name := "example.com" }] ∧
        ∃ sent : DNSResolver, sent.ForwardZones = none ∧
          resourceBigipNetDnsResolverUpdate id recordingDNSResolverClient none
              ⟨resourceBigipNetDnsResolverSchema, "/Common/r1", [("description", .string "d")]⟩ =
            .ok (some sent,
              resourceBigipNetDnsResolverRead id recordingDNSResolverClient (some sent)
                ⟨resourceBigipNetDnsResolverSchema, "/Common/r1", [("description", .string "d")]⟩)) ∧
    (∃ out,
      getNetDNSResolverConfig
          ⟨resourceBigipNetDnsResolverSchema, "/Common/r1",
            [("forward_zones", .slice [rawForwardZone ("example.com", ["1.1.1.1:53"])])]⟩
          { Name := "/Common/r1" } = .ok out ∧
        expandDNSResolverForwardZones (some [rawForwardZone ("example.com", ["1.1.1.1:53"])]) =
          .ok out.ForwardZones) := by
  constructor
  · obtain ⟨out, h1, -, -, -, -, -, -, -, -, -, -, -, -, -, h15, h16⟩ :=
      getNetDNSResolverConfig_frame id "/Common/r1" [("description", .string "d")]
        { Name := "/Common/r1", ForwardZones := some [{ Name := "example.com" }] } []
        (by decide) (by simp)
    obtain ⟨sent, -, hz, hu⟩ := h16 (by decide)
    exact ⟨out, h1, h15 (by decide), sent, hz, hu _ recordingDNSResolverClient none⟩
  · obtain ⟨out, h1, -, -, -, -, -, -, -, -, -, -, -, -, h14, -, -⟩ :=
      getNetDNSResolverConfig_frame id "/Common/r1"
        [("forward_zones", .slice [rawForwardZone ("example.com", ["1.1.1.1:53"])])]
        { Name := "/Common/r1" } [("example.com", ["1.1.1.1:53"])] (by decide) (by decide)
    exact ⟨out, h1, h14 _ (by decide) (by simp)⟩

/-! ### The `name` attribute after a DNS resolver read -/

theorem flattenDNSResolverForwardZones_flat (zones : GoSlice DNSResolverForwardZone) :
    flattenDNSResolverForwardZones zones =
      some ((zones.elems.map (fun z => (z.Name, flattenNameServers z.NameServers))).map flatForwardZone) := by
  rw [flattenDNSResolverForwardZones_eq, List.map_map]
  congr 1
  apply List.map_congr_left
  intro z _
  simp only [Function.comp, flattenedZone, flatForwardZone, flattenNameServers_eq]

theorem resourceBigipNetDnsResolverRead_name {σ : Type} (caseTable : Char → Char)
    (client : DNSResolverClient σ) (dev : σ) (id : String) (attrs : List (String × GoValue))
    (resolver : DNSResolver) (hget : client.GetDNSResolver dev id = (some resolver, none)) :
    (resourceBigipNetDnsResolverRead caseTable client dev
        ⟨resourceBigipNetDnsResolverSchema, id, attrs⟩).2 = [] ∧
      (resourceBigipNetDnsResolverRead caseTable client dev
        ⟨resourceBigipNetDnsResolverSchema, id, attrs⟩).1.id = id ∧
      (resourceBigipNetDnsResolverRead caseTable client dev
        ⟨resourceBigipNetDnsResolverSchema, id, attrs⟩).1.Get "name" =
        .string (if resolver.FullPath ≠ "" then resolver.FullPath else id) := by
  rw [resourceBigipNetDnsResolverRead_found caseTable client dev id attrs resolver _ hget
    (flattenDNSResolverForwardZones_flat resolver.ForwardZones)]
  exact ⟨rfl, rfl, ResourceData.Get_of_lookup _ _ _ _ .TypeString _ rfl rfl rfl rfl⟩

/-- C15: after a `resourceBigipNetDnsResolverRead` that found the resolver there are no
diagnostics, the ID is unchanged, and `name` reads as the resolver's `FullPath` when
that is non-empty and as the ID otherwise; so after creating a resolver whose `FullPath`
the device reports as the configured name (or reports empty), `name` reads as
configured. -/
theorem resourceBigipNetDnsResolverRead_sets_name {σ : Type} (caseTable : Char → Char)
    (client : DNSResolverClient σ) (dev : σ) (id : String) (attrs : List (String × GoValue)) :
    (∀ resolver, client.GetDNSResolver dev id = (some resolver, none) →
      (resourceBigipNetDnsResolverRead caseTable client dev
          ⟨resourceBigipNetDnsResolverSchema, id, attrs⟩).2 = [] ∧
        (resourceBigipNetDnsResolverRead caseTable client dev
          ⟨resourceBigipNetDnsResolverSchema, id, attrs⟩).1.id = id ∧
        (resolver.FullPath ≠ "" →
          (resourceBigipNetDnsResolverRead caseTable client dev
            ⟨resourceBigipNetDnsResolverSchema, id, attrs⟩).1.Get "name" = .string resolver.FullPath) ∧
        (resolver.FullPath = "" →
          (resourceBigipNetDnsResolverRead caseTable client dev
            ⟨resourceBigipNetDnsResolverSchema, id, attrs⟩).1.Get "name" = .string id)) ∧
    (∀ name config dev' resolver,
      (⟨resourceBigipNetDnsResolverSchema, id, attrs⟩ : ResourceData).Get "name" = .string name →
      getNetDNSResolverConfig ⟨resourceBigipNetDnsResolverSchema, id, attrs⟩ { Name := name } =
        .ok config →
      client.CreateDNSResolver dev config = (dev', none) →
      client.GetDNSResolver dev' name = (some resolver, none) →
      (resolver.FullPath = name ∨ resolver.FullPath = "") →
      ∃ r, resourceBigipNetDnsResolverCreate caseTable client dev
          ⟨resourceBigipNetDnsResolverSchema, id, attrs⟩ = .ok (dev', r, []) ∧
        r.id = name ∧
        r.Get "name" = (⟨resourceBigipNetDnsResolverSchema, id, attrs⟩ : ResourceData).Get "name") := by
  constructor
  · intro resolver hget
    obtain ⟨h1, h2, h3⟩ := resourceBigipNetDnsResolverRead_name caseTable client dev id attrs resolver hget
    refine ⟨h1, h2, ?_, ?_⟩
    · intro hne
      rw [h3, if_pos hne]
    · intro he
      rw [h3, if_neg (not_not.mpr he)]
  · intro name config dev' resolver hname hconfig hcreate hget hfull
    obtain ⟨h1, h2, h3⟩ := resourceBigipNetDnsResolverRead_name caseTable client dev' name attrs
      resolver hget
    refine ⟨(resourceBigipNetDnsResolverRead caseTable client dev'
      ⟨resourceBigipNetDnsResolverSchema, name, attrs⟩).1, ?_, h2, ?_⟩
    · unfold resourceBigipNetDnsResolverCreate
      rw [hname]
      simp only [GoValue.assertString, bind, Except.bind, hconfig, hcreate, ResourceData.SetId]
      rw [← h1]
      rfl
    · rw [h3, hname]
      rcases hfull with hf | hf
      · by_cases hn : resolver.FullPath = ""
        · rw [if_neg (not_not.mpr hn), ← hf, hn]
        · rw [if_pos hn, hf]
      · rw [if_neg (not_not.mpr hf)]

/-- C15, on the resolver "/Common/test-dns-resolver" of the acceptance test, read from a
device that reports the full path and created on a device that returns the resolver
as it was passed. -/
theorem resourceBigipNetDnsResolverRead_sets_name_witness :
    (resourceBigipNetDnsResolverRead id
        (fixedDNSResolverClient
          (some { Name := "test-dns-resolver", FullPath := "/Common/test-dns-resolver" }, none)
          none) ()
        ⟨resourceBigipNetDnsResolverSchema, "/Common/test-dns-resolver", []⟩).1.Get "name" =
      .string "/Common/test-dns-resolver" ∧
    (resourceBigipNetDnsResolverRead id
        (fixedDNSResolverClient (some { Name := "test-dns-resolver" }, none) none) ()
        ⟨resourceBigipNetDnsResolverSchema, "/Common/test-dns-resolver", []⟩).1.Get "name" =
      .string "/Common/test-dns-resolver" ∧
    ∃ r, resourceBigipNetDnsResolverCreate id recordingDNSResolverClient none
        ⟨resourceBigipNetDnsResolverSchema, "", [("name", .string "/Common/test-dns-resolver")]⟩ =
        .ok (some { Name := "/Common/test-dns-resolver" }, r, []) ∧
      r.id = "/Common/test-dns-resolver" ∧
      r.Get "name" = ResourceData.Get
        ⟨resourceBigipNetDnsResolverSchema, "", [("name", .string "/Common/test-dns-resolver")]⟩ "name" :=
  ⟨((resourceBigipNetDnsResolverRead_sets_name id
      (fixedDNSResolverClient
        (some { Name := "test-dns-resolver", FullPath := "/Common/test-dns-resolver" }, none)
        none) ()
      "/Common/test-dns-resolver" []).1 _ rfl).2.2.1 (by decide),
   ((resourceBigipNetDnsResolverRead_sets_name id
      (fixedDNSResolverClient (some { Name := "test-dns-resolver" }, none) none) ()
      "/Common/test-dns-resolver" []).1 _ rfl).2.2.2 rfl,
   (resourceBigipNetDnsResolverRead_sets_name id recordingDNSResolverClient none ""
      [("name", .string "/Common/test-dns-resolver")]).2 "/Common/test-dns-resolver"
      { Name := "/Common/test-dns-resolver" } (some { Name := "/Common/test-dns-resolver" })
      { Name := "/Common/test-dns-resolver" } (by decide) rfl rfl rfl (Or.inr rfl)⟩

/-! ### Wrapping of client errors -/

/-- C14 as stated fails: when `GetWebtop` fails with "connection refused", the webtop data
source's Read returns the diagnostic "connection refused", the client's message alone
without a prefix. -/
theorem dataSourceBigIPAPMWebtopRead_error_unwrapped :
    dataSourceBigIPAPMWebtopRead
        (fixedBigIP ({}, none, false) ({}, some ⟨"connection refused"⟩, false) none) () ⟨none⟩
        ⟨dataSourceBigIPAPMWebtopSchema, "", [("name", .string "w1")]⟩ =
      .ok (⟨dataSourceBigIPAPMWebtopSchema, "", [("name", .string "w1")]⟩,
        errorDiagnostics "connection refused") := by
  rfl

/-- C14 (amended): when the client call fails with an error `e` that is not treated as
not-found, the Create, Read, Update and Delete handlers of the DNS resolver and of the
ILX workspace and the Read and Delete handlers of the webtop return one error
diagnostic whose message is an operation-specific prefix followed by `e`'s message and
leave the resource data unchanged; the webtop data source's Read returns one error
diagnostic with `e`'s message unchanged. -/
theorem client_errors_wrapped {σ : Type} (caseTable : Char → Char)
    (dns : DNSResolverClient σ) (b : BigIP σ) (dev : σ) (ctx : Context) (d : ResourceData)
    (e : GoError) :
    (∀ name config dev',
        d.Get "name" = .string name → getNetDNSResolverConfig d { Name := name } = .ok config →
        dns.CreateDNSResolver dev config = (dev', some e) →
        resourceBigipNetDnsResolverCreate caseTable dns dev d =
          .ok (dev', d, errorDiagnostics ("error creating DNS resolver " ++ name ++ ": " ++ e.msg))) ∧
    (∀ r, dns.GetDNSResolver dev d.Id = (r, some e) →
        isDNSResolverNotFound caseTable (some e) = false →
        resourceBigipNetDnsResolverRead caseTable dns dev d =
          (d, errorDiagnostics ("error retrieving DNS resolver " ++ d.Id ++ ": " ++ e.msg))) ∧
    (∀ config dev',
        getNetDNSResolverConfig d { Name := d.Id } = .ok config →
        dns.ModifyDNSResolver dev d.Id config = (dev', some e) →
        resourceBigipNetDnsResolverUpdate caseTable dns dev d =
          .ok (dev', d, errorDiagnostics ("error modifying DNS resolver " ++ d.Id ++ ": " ++ e.msg))) ∧
    (∀ dev', dns.DeleteDNSResolver dev d.Id = (dev', some e) →
        isDNSResolverNotFound caseTable (some e) = false →
        resourceBigipNetDnsResolverDelete caseTable dns dev d =
          (dev', d, errorDiagnostics ("error deleting DNS resolver " ++ d.Id ++ ": " ++ e.msg))) ∧
    (∀ name w, d.Get "name" = .string name → b.GetWorkspace dev ctx name = (w, some e) →
        resourceBigIPILXWorkspaceRead b dev ctx d =
          .ok (d, errorDiagnostics ("error reading workspace " ++ e.msg))) ∧
    (∀ name dev', d.Get "name" = .string name → b.CreateWorkspace dev ctx name = (dev', some e) →
        resourceBigIPILXWorkspaceCreate b dev ctx d =
          .ok (dev', d, errorDiagnostics ("error creating workspace " ++ e.msg))) ∧
    (∀ name dev', d.Get "name" = .string name → b.PatchWorkspace dev ctx name = (dev', some e) →
        resourceBigIPILXWorkspaceUpdate b dev ctx d =
          .ok (dev', d, errorDiagnostics ("error updating workspace " ++ e.msg))) ∧
    (∀ name dev', d.Get "name" = .string name → b.DeleteWorkspace dev ctx name = (dev', some e) →
        resourceBigIPILXWorkspaceDelete b dev ctx d =
          .ok (dev', d, errorDiagnostics ("error deleting workspace " ++ e.msg))) ∧
    (∀ name w, d.Get "name" = .string name → b.GetWebtop dev ctx name = (w, some e) →
        resourceBigIPAPMWebtopRead b dev ctx d =
          .ok (d, errorDiagnostics ("error reading webtop " ++ e.msg))) ∧
    (∀ name dev', d.Get "name" = .string name → b.DeleteWebtop dev ctx name = (dev', some e) →
        resourceBigIPAPMWebtopDelete b dev ctx d =
          .ok (dev', d, errorDiagnostics ("error deleting webtop " ++ e.msg))) ∧
    (∀ name w, d.Get "name" = .string name → b.GetWebtop dev ctx name = (w, some e) →
        dataSourceBigIPAPMWebtopRead b dev ctx d = .ok (d, errorDiagnostics e.msg)) := by
  refine ⟨?_, ?_, ?_, ?_, ?_, ?_, ?_, ?_, ?_, ?_, ?_⟩
  · intro name config dev' hname hconfig hcall
    unfold resourceBigipNetDnsResolverCreate
    rw [hname]
    simp only [GoValue.assertString, bind, Except.bind, hconfig, hcall]
    rfl
  · intro r hcall hnf
    simp only [resourceBigipNetDnsResolverRead, hcall, hnf]
    rfl
  · intro config dev' hconfig hcall
    unfold resourceBigipNetDnsResolverUpdate
    simp only [ResourceData.Id] at hconfig hcall ⊢
    simp only [bind, Except.bind, hconfig, hcall]
    rfl
  · intro dev' hcall hnf
    simp only [resourceBigipNetDnsResolverDelete, hcall, hnf]
    rfl
  · intro name w hname hcall
    simp only [resourceBigIPILXWorkspaceRead, hname, GoValue.assertString, bind, Except.bind, hcall]
    rfl
  · intro name dev' hname hcall
    simp only [resourceBigIPILXWorkspaceCreate, hname, GoValue.assertString, bind, Except.bind, hcall]
    rfl
  · intro name dev' hname hcall
    simp only [resourceBigIPILXWorkspaceUpdate, hname, GoValue.assertString, bind, Except.bind, hcall]
    rfl
  · intro name dev' hname hcall
    simp only [resourceBigIPILXWorkspaceDelete, hname, GoValue.assertString, bind, Except.bind, hcall]
    rfl
  · intro name w hname hcall
    simp only [resourceBigIPAPMWebtopRead, hname, GoValue.assertString, bind, Except.bind, hcall]
    rfl
  · intro name dev' hname hcall
    simp only [resourceBigIPAPMWebtopDelete, hname, GoValue.assertString, bind, Except.bind, hcall]
    rfl
  · intro name w hname hcall
    simp only [dataSourceBigIPAPMWebtopRead, hname, GoValue.assertString, bind, Except.bind, hcall]
    rfl

/-- C14 (amended), on devices whose calls fail with "connection refused": the DNS
resolver Create and Read, the ILX workspace Delete, the webtop Read and the data
source's Read. -/
theorem client_errors_wrapped_witness :
    resourceBigipNetDnsResolverCreate id
        (fixedDNSResolverClient (none, none) (some ⟨"connection refused"⟩)) ()
        ⟨resourceBigipNetDnsResolverSchema, "", [("name", .string "/Common/r1")]⟩ =
      .ok ((), ⟨resourceBigipNetDnsResolverSchema, "", [("name", .string "/Common/r1")]⟩,
        errorDiagnostics ("error creating DNS resolver " ++ "/Common/r1" ++ ": " ++ "connection refused")) ∧
    resourceBigipNetDnsResolverRead id
        (fixedDNSResolverClient (none, some ⟨"connection refused"⟩) none) ()
        ⟨resourceBigipNetDnsResolverSchema, "/Common/r1", []⟩ =
      (⟨resourceBigipNetDnsResolverSchema, "/Common/r1", []⟩,
        errorDiagnostics ("error retrieving DNS resolver " ++ "/Common/r1" ++ ": " ++ "connection refused")) ∧
    resourceBigIPILXWorkspaceDelete
        (fixedBigIP ({}, none, false) ({}, none, false) (some ⟨"connection refused"⟩)) () ⟨none⟩
        ⟨resourceBigIPILXWorkspaceSchema, "ws1", [("name", .string "ws1")]⟩ =
      .ok ((), ⟨resourceBigIPILXWorkspaceSchema, "ws1", [("name", .string "ws1")]⟩,
        errorDiagnostics ("error deleting workspace " ++
          "error deleting ILX Workspace: connection refused")) ∧
    resourceBigIPAPMWebtopRead
        (fixedBigIP ({}, none, false) ({}, some ⟨"connection refused"⟩, false) none) () ⟨none⟩
        ⟨resourceBigIPAPMWebtopSchema, "w1", [("name", .string "w1")]⟩ =
      .ok (⟨resourceBigIPAPMWebtopSchema, "w1", [("name", .string "w1")]⟩,
        errorDiagnostics ("error reading webtop " ++ "connection refused")) ∧
    dataSourceBigIPAPMWebtopRead
        (fixedBigIP ({}, none, false) ({}, some ⟨"connection refused"⟩, false) none) () ⟨none⟩
        ⟨dataSourceBigIPAPMWebtopSchema, "", [("name", .string "w1")]⟩ =
      .ok (⟨dataSourceBigIPAPMWebtopSchema, "", [("name", .string "w1")]⟩,
        errorDiagnostics "connection refused") :=
  ⟨(client_errors_wrapped id (fixedDNSResolverClient (none, none) (some ⟨"connection refused"⟩))
      (fixedBigIP ({}, none, false) ({}, none, false) none) () ⟨none⟩
      ⟨resourceBigipNetDnsResolverSchema, "", [("name", .string "/Common/r1")]⟩
      ⟨"connection refused"⟩).1 "/Common/r1" { Name := "/Common/r1" } () (by decide) rfl rfl,
   (client_errors_wrapped id (fixedDNSResolverClient (none, some ⟨"connection refused"⟩) none)
      (fixedBigIP ({}, none, false) ({}, none, false) none) () ⟨none⟩
      ⟨resourceBigipNetDnsResolverSchema, "/Common/r1", []⟩
      ⟨"connection refused"⟩).2.1 none rfl (by decide),
   (client_errors_wrapped id (fixedDNSResolverClient (none, none) none)
      (fixedBigIP ({}, none, false) ({}, none, false) (some ⟨"connection refused"⟩)) () ⟨none⟩
      ⟨resourceBigIPILXWorkspaceSchema, "ws1", [("name", .string "ws1")]⟩
      ⟨"error deleting ILX Workspace: connection refused"⟩).2.2.2.2.2.2.2.1 "ws1" ()
      (by decide) rfl,
   (client_errors_wrapped id (fixedDNSResolverClient (none, none) none)
      (fixedBigIP ({}, none, false) ({}, some ⟨"connection refused"⟩, false) none) () ⟨none⟩
      ⟨resourceBigIPAPMWebtopSchema, "w1", [("name", .string "w1")]⟩
      ⟨"connection refused"⟩).2.2.2.2.2.2.2.2.1 "w1" (some {}) (by decide) rfl,
   (client_errors_wrapped id (fixedDNSResolverClient (none, none) none)
      (fixedBigIP ({}, none, false) ({}, some ⟨"connection refused"⟩, false) none) () ⟨none⟩
      ⟨dataSourceBigIPAPMWebtopSchema, "", [("name", .string "w1")]⟩
      ⟨"connection refused"⟩).2.2.2.2.2.2.2.2.2.2 "w1" (some {}) (by decide) rfl⟩

end Bigip
